import Mathlib

/-! Header validation middleware: a shallow embedding of `main.go`.

The Go package validates the headers of an HTTP request against a configured
list of header rules.  This file embeds its functions as Lean definitions and
proves properties of them.

Modelling conventions.

* Go `string` is Lean `String` (a sequence of Unicode code points); the
  configuration and the header values are taken to be valid UTF-8.
* `*bool` is `Option Bool`, `nil` being `none`.
* `(T, error)` results of the package are `Except String T`, the string being
  the text of the error.
* `regexp.MatchString` and `url.QueryUnescape` belong to the Go standard
  library, not to the package; they are parameters of the embedding (`Lib`),
  returned as the pairs Go returns.
* `req.Header.Get` is the only way the package reads a request; a request is
  that lookup function.
* `fmt.Println` of the debug branches writes to standard output only; the
  branches are kept, the output is not modelled.
* `ServeHTTP` returns which of its two calls it makes, `next.ServeHTTP` or
  `http.Error` with its arguments.
* `context.Context` and the `next` handler are not inspected by the package
  and are left out of `New`.
-/

namespace ValidateHeaders

/-! ## Data model -/

/-- A single header rule: `SingleHeader` of `main.go`. -/
structure SingleHeader where
  Name : String
  Values : List String
  MatchType : String
  Required : Option Bool
  Contains : Option Bool
  URLDecode : Option Bool
  Debug : Option Bool
  Regex : Option Bool
deriving DecidableEq

/-- The custom denial response: `ErrorConfig` of `main.go`. -/
structure ErrorConfig where
  StatusCode : Int
  Message : String
deriving DecidableEq

/-- The plugin configuration: `Config` of `main.go`. -/
structure Config where
  Headers : List SingleHeader
  MatchType : String
  Error : ErrorConfig
deriving DecidableEq

/-- The handler built by `New`: `Validator` of `main.go`, without `next`. -/
structure Validator where
  headers : List SingleHeader
  config : Config
  name : String
deriving DecidableEq

/-- The constant `MatchAll`. -/
def MatchAll : String := "all"

/-- The constant `MatchOne`. -/
def MatchOne : String := "one"

/-- The constant `MatchNone`. -/
def MatchNone : String := "none"

/-- The constant `http.StatusForbidden`. -/
def StatusForbidden : Int := 403

/-- The standard-library functions the package calls, as Go returns them:
`MatchString pattern s` is `(matched, err)` and `QueryUnescape s` is
`(unescaped, err)`, with `err = none` for Go's `nil`. -/
structure Lib where
  MatchString : String → String → Bool × Option String
  QueryUnescape : String → String × Option String

/-- A request, as the package reads it: `Get name` is `req.Header.Get(name)`,
the empty string when the header is absent. -/
structure Request where
  Get : String → String

/-! ## Flag accessors -/

/-- `IsURLDecode`: `s.URLDecode != nil && *s.URLDecode`. -/
def SingleHeader.IsURLDecode (s : SingleHeader) : Bool :=
  match s.URLDecode with
  | none => false
  | some b => b

/-- `IsDebug`: `s.Debug != nil && *s.Debug`. -/
def SingleHeader.IsDebug (s : SingleHeader) : Bool :=
  match s.Debug with
  | none => false
  | some b => b

/-- `IsContains`: `s.Contains != nil && *s.Contains`. -/
def SingleHeader.IsContains (s : SingleHeader) : Bool :=
  match s.Contains with
  | none => false
  | some b => b

/-- `IsRequired`: `s.Required == nil || *s.Required`. -/
def SingleHeader.IsRequired (s : SingleHeader) : Bool :=
  match s.Required with
  | none => true
  | some b => b

/-- `IsRegex`: `s.Regex != nil && *s.Regex`. -/
def SingleHeader.IsRegex (s : SingleHeader) : Bool :=
  match s.Regex with
  | none => false
  | some b => b

/-! ## String helpers of the Go standard library -/

/-- Go's `unicode.IsSpace`: the Latin-1 spaces and the other code points with
the White_Space property. -/
def isSpace (c : Char) : Bool :=
  let n := c.toNat
  n == 0x09 || n == 0x0A || n == 0x0B || n == 0x0C || n == 0x0D || n == 0x20 ||
  n == 0x85 || n == 0xA0 || n == 0x1680 || (0x2000 ≤ n && n ≤ 0x200A) ||
  n == 0x2028 || n == 0x2029 || n == 0x202F || n == 0x205F || n == 0x3000

/-- Go's `strings.TrimSpace`: the string without its leading and trailing
white space. -/
def TrimSpace (s : String) : String :=
  ⟨((s.data.dropWhile isSpace).reverse.dropWhile isSpace).reverse⟩

/-- Whether `sub` is a prefix of `s`. -/
def hasPrefixChars : List Char → List Char → Bool
  | _, [] => true
  | [], _ :: _ => false
  | c :: s, d :: sub => c == d && hasPrefixChars s sub

/-- Whether `sub` occurs in `s` at some position. -/
def containsChars : List Char → List Char → Bool
  | [], sub => hasPrefixChars [] sub
  | c :: s, sub => hasPrefixChars (c :: s) sub || containsChars s sub

/-- Go's `strings.Contains`: whether `substr` is within `s`. -/
def Contains (s substr : String) : Bool :=
  containsChars s.data substr.data

/-- Go's `ishex` of `net/url`: whether the character is a hexadecimal digit. -/
def ishex (c : Char) : Bool :=
  ('0' ≤ c && c ≤ '9') || ('a' ≤ c && c ≤ 'f') || ('A' ≤ c && c ≤ 'F')

/-- Go's `unhex` of `net/url`: the value of a hexadecimal digit. -/
def unhex (c : Char) : Nat :=
  if '0' ≤ c && c ≤ '9' then c.toNat - '0'.toNat
  else if 'a' ≤ c && c ≤ 'f' then c.toNat - 'a'.toNat + 10
  else if 'A' ≤ c && c ≤ 'F' then c.toNat - 'A'.toNat + 10
  else 0

/-- The two passes of Go's `unescape` of `net/url` in query-component mode, in
one: `none` when a `%` is not followed by two hexadecimal digits, else the
text with every `%XX` replaced by the character of code `XX` and every `+` by
a space. -/
def unescapeChars : List Char → Option (List Char)
  | [] => some []
  | c :: rest =>
    if c = '%' then
      match rest with
      | a :: b :: tail =>
        if ishex a && ishex b then
          match unescapeChars tail with
          | some t => some (Char.ofNat (16 * unhex a + unhex b) :: t)
          | none => none
        else none
      | _ => none
    else
      match unescapeChars rest with
      | some t => some ((if c = '+' then ' ' else c) :: t)
      | none => none

/-- Go's `url.QueryUnescape`, as the pair `(unescaped, err)`: on a malformed
escape the empty string and an `EscapeError` (its text is shortened here),
else the unescaped text and no error.  The model agrees with Go whenever every
escape `%XX` of the string stands for a byte below `0x80`. -/
def QueryUnescape (s : String) : String × Option String :=
  match unescapeChars s.data with
  | some t => (⟨t⟩, none)
  | none => ("", some "invalid URL escape")

/-! ## Construction -/

/-- The loop of `New` over the values of one rule. -/
def checkValues : List String → Except String Unit
  | [] => .ok ()
  | value :: rest =>
    if TrimSpace value = "" then
      .error "validate-headers: configuration incorrect, empty value found"
    else
      checkValues rest

/-- The body of the loop of `New` over the header rules, for one rule. -/
def checkHeader (vHeader : SingleHeader) : Except String Unit :=
  if TrimSpace vHeader.Name = "" then
    .error "validate-headers: configuration incorrect, missing header name"
  else if vHeader.MatchType == MatchAll && !(vHeader.IsContains || vHeader.IsRegex) then
    .error ("validate-headers: configuration incorrect for header " ++ vHeader.Name ++
      ", match-all can only be used in combination with \x27contains\x27 or \x27regex\x27")
  else if TrimSpace vHeader.MatchType = "" then
    .error ("validate-headers: configuration incorrect, missing match type configuration for header "
      ++ vHeader.Name)
  else if vHeader.Values.length = 0 then
    .error "validate-headers: configuration incorrect, missing header values"
  else
    checkValues vHeader.Values

/-- The loop of `New` over the header rules: the first error ends it. -/
def checkHeaders : List SingleHeader → Except String Unit
  | [] => .ok ()
  | vHeader :: rest =>
    match checkHeader vHeader with
    | .error e => .error e
    | .ok () => checkHeaders rest

/-- The defaults `New` writes into `config.Error` when they are unset. -/
def fillDefaults (config : Config) : Config :=
  let config :=
    if config.Error.StatusCode = 0 then
      { config with Error := { config.Error with StatusCode := StatusForbidden } }
    else config
  if config.Error.Message = "" then
    { config with Error := { config.Error with Message := "Not allowed" } }
  else config

/-- `New`: validates the configuration and builds the `Validator`. -/
def New (config : Config) (name : String) : Except String Validator :=
  if config.Headers.length = 0 then
    .error "validate-headers: configuration incorrect, missing headers"
  else
    let config := fillDefaults config
    match checkHeaders config.Headers with
    | .error e => .error e
    | .ok () => .ok { headers := config.Headers, config := config, name := name }

/-- `CreateConfig`: the default plugin configuration. -/
def CreateConfig : Config :=
  { Headers := [], MatchType := MatchAll,
    Error := { StatusCode := StatusForbidden, Message := "Not allowed" } }

/-! ## Evaluation of one rule -/

/-- The counting loop of `checkContains`, from the current `matchCount`. -/
def containsCount (requestValue : String) : List String → Nat → Nat
  | [], matchCount => matchCount
  | value :: rest, matchCount =>
    if Contains requestValue value then
      containsCount requestValue rest (matchCount + 1)
    else
      containsCount requestValue rest matchCount

/-- `checkContains`: whether the header value contains the configured values. -/
def checkContains (requestValue : String) (vHeader : SingleHeader) : Bool :=
  let matchCount := containsCount requestValue vHeader.Values 0
  if vHeader.MatchType = MatchNone then
    matchCount == 0
  else if matchCount == 0 ||
      (vHeader.MatchType == MatchAll && matchCount != vHeader.Values.length) then
    false
  else
    true

/-- The counting loop of `checkRegex`, from the current `matchCount`; the
second branch is the debug report of a pattern error. -/
def regexCount (lib : Lib) (requestValue : String) (debug : Bool) :
    List String → Nat → Nat
  | [], matchCount => matchCount
  | value :: rest, matchCount =>
    let (isMatch, err) := lib.MatchString value requestValue
    if err = none ∧ isMatch = true then
      regexCount lib requestValue debug rest (matchCount + 1)
    else if debug = true ∧ err ≠ none then
      regexCount lib requestValue debug rest matchCount
    else
      regexCount lib requestValue debug rest matchCount

/-- `checkRegex`: whether the header value matches the configured patterns. -/
def checkRegex (lib : Lib) (requestValue : String) (vHeader : SingleHeader) : Bool :=
  let matchCount := regexCount lib requestValue vHeader.IsDebug vHeader.Values 0
  if vHeader.MatchType = MatchNone then
    matchCount == 0
  else if matchCount == 0 ||
      (vHeader.MatchType == MatchAll && matchCount != vHeader.Values.length) then
    false
  else
    true

/-- The counting loop of `checkRequired`, from the current `matchCount`: a
value adds one when it equals the header value, and one more when the rule is
optional and the header value is empty. -/
def requiredCount (requestValue : String) (required : Bool) : List String → Nat → Nat
  | [], matchCount => matchCount
  | value :: rest, matchCount =>
    let matchCount := if requestValue = value then matchCount + 1 else matchCount
    let matchCount := if !required && requestValue == "" then matchCount + 1 else matchCount
    requiredCount requestValue required rest matchCount

/-- `checkRequired`: the equality check, which also decides an empty header
value. -/
def checkRequired (requestValue : String) (vHeader : SingleHeader) : Bool :=
  let matchCount := requiredCount requestValue vHeader.IsRequired vHeader.Values 0
  if vHeader.MatchType = MatchNone then
    if requestValue = "" then
      !vHeader.IsRequired
    else
      matchCount == 0
  else
    decide (matchCount > 0)

/-- `checkMatches`: dispatches on the strategy flags of the rule. -/
def checkMatches (lib : Lib) (requestValue : String) (vHeader : SingleHeader) : Bool :=
  if vHeader.IsContains then
    checkContains requestValue vHeader
  else if vHeader.IsRegex then
    checkRegex lib requestValue vHeader
  else
    checkRequired requestValue vHeader

/-! ## Evaluation of a request -/

/-- The loop of `checkAll`, from the current `isValid`. -/
def checkAllLoop (lib : Lib) (req : Request) : List SingleHeader → Bool → Bool
  | [], isValid => isValid
  | vHeader :: rest, isValid =>
    if !isValid then
      false
    else
      let reqHeaderVal := req.Get vHeader.Name
      let reqHeaderVal :=
        if vHeader.IsURLDecode then (lib.QueryUnescape reqHeaderVal).1 else reqHeaderVal
      if reqHeaderVal ≠ "" then
        if !checkMatches lib reqHeaderVal vHeader then
          checkAllLoop lib req rest false
        else
          checkAllLoop lib req rest isValid
      else
        if !checkRequired reqHeaderVal vHeader then
          checkAllLoop lib req rest false
        else
          checkAllLoop lib req rest isValid

/-- `checkAll`: whether all of the configured headers match in the request. -/
def checkAll (lib : Lib) (headers : List SingleHeader) (req : Request) : Bool :=
  checkAllLoop lib req headers true

/-- The loop of `checkOne`, from the current `isValid`. -/
def checkOneLoop (lib : Lib) (req : Request) : List SingleHeader → Bool → Bool
  | [], isValid => isValid
  | vHeader :: rest, isValid =>
    let reqHeaderVal := req.Get vHeader.Name
    let reqHeaderVal :=
      if vHeader.IsURLDecode then (lib.QueryUnescape reqHeaderVal).1 else reqHeaderVal
    if reqHeaderVal ≠ "" then
      if checkMatches lib reqHeaderVal vHeader then
        checkOneLoop lib req rest true
      else
        checkOneLoop lib req rest isValid
    else
      if !checkRequired reqHeaderVal vHeader then
        checkOneLoop lib req rest false
      else
        checkOneLoop lib req rest isValid

/-- `checkOne`: the top-level combinator for match type `one`. -/
def checkOne (lib : Lib) (headers : List SingleHeader) (req : Request) : Bool :=
  checkOneLoop lib req headers false

/-- The loop of `checkNone`, from the current `isValid`. -/
def checkNoneLoop (lib : Lib) (req : Request) : List SingleHeader → Bool → Bool
  | [], isValid => isValid
  | vHeader :: rest, isValid =>
    if !isValid then
      false
    else
      let reqHeaderVal := req.Get vHeader.Name
      let reqHeaderVal :=
        if vHeader.IsURLDecode then (lib.QueryUnescape reqHeaderVal).1 else reqHeaderVal
      if reqHeaderVal ≠ "" then
        if !checkRequired reqHeaderVal vHeader then
          checkNoneLoop lib req rest false
        else
          checkNoneLoop lib req rest isValid
      else
        if !checkRequired reqHeaderVal vHeader then
          checkNoneLoop lib req rest true
        else
          checkNoneLoop lib req rest isValid

/-- `checkNone`: the top-level combinator for match type `none`. -/
def checkNone (lib : Lib) (headers : List SingleHeader) (req : Request) : Bool :=
  checkNoneLoop lib req headers true

/-- What `ServeHTTP` does with the request: `next` for the call
`a.next.ServeHTTP(rw, req)`, `error message statusCode` for the call
`http.Error(rw, message, statusCode)`. -/
inductive Outcome where
  | next : Outcome
  | error (message : String) (statusCode : Int) : Outcome
deriving DecidableEq

/-- The `switch` of `ServeHTTP`: the value of `headersValid` after it. -/
def Validator.headersValid (lib : Lib) (a : Validator) (req : Request) : Bool :=
  if a.config.MatchType = MatchNone then
    checkNone lib a.headers req
  else if a.config.MatchType = MatchAll then
    checkAll lib a.headers req
  else if a.config.MatchType = MatchOne then
    checkOne lib a.headers req
  else
    checkAll lib a.headers req

/-- `ServeHTTP`: passes the request on when the headers are valid, and writes
the configured error otherwise. -/
def Validator.ServeHTTP (lib : Lib) (a : Validator) (req : Request) : Outcome :=
  let headersValid := a.headersValid lib req
  if headersValid then
    .next
  else
    .error a.config.Error.Message a.config.Error.StatusCode

/-! ## Vocabulary of the specification -/

/-- A rule satisfies every per-rule condition of the configuration checks:
non-blank name, non-blank match type, not match type `all` without `contains`
or `regex`, a non-empty list of values, none of them blank. -/
def RuleValid (r : SingleHeader) : Prop :=
  TrimSpace r.Name ≠ "" ∧ TrimSpace r.MatchType ≠ "" ∧
  ¬(r.MatchType = "all" ∧ r.IsContains = false ∧ r.IsRegex = false) ∧
  r.Values ≠ [] ∧ ∀ value ∈ r.Values, TrimSpace value ≠ ""

/-- One configured value matches the observed value under the strategy of the
rule: substring containment when `contains` is set, else a pattern match
without error when `regex` is set, else equality. -/
def valueMatches (lib : Lib) (r : SingleHeader) (observed value : String) : Bool :=
  if r.IsContains then Contains observed value
  else if r.IsRegex then
    (lib.MatchString value observed).1 && (lib.MatchString value observed).2.isNone
  else observed == value

/-- The number of configured values of the rule that match the observed
value. -/
def matchCount (lib : Lib) (r : SingleHeader) (observed : String) : Nat :=
  (r.Values.filter (valueMatches lib r observed)).length

/-- The header value a rule is evaluated on: the value of the header named by
the rule, empty when absent, URL-decoded when the rule asks for it. -/
def observedValue (lib : Lib) (req : Request) (r : SingleHeader) : String :=
  if r.IsURLDecode then (lib.QueryUnescape (req.Get r.Name)).1 else req.Get r.Name

/-- The verdict of one rule on an observed value: `checkMatches` on a
non-empty value, `checkRequired` on an empty one. -/
def verdictOn (lib : Lib) (observed : String) (r : SingleHeader) : Bool :=
  if observed ≠ "" then checkMatches lib observed r else checkRequired observed r

/-- The verdict of one rule on a request: its verdict on the header value it
is evaluated on. -/
def verdict (lib : Lib) (req : Request) (r : SingleHeader) : Bool :=
  verdictOn lib (observedValue lib req r) r

/-- The rule has a non-empty header value in the request and `checkMatches`
holds on it. -/
def matchesPresent (lib : Lib) (req : Request) (r : SingleHeader) : Bool :=
  observedValue lib req r != "" && checkMatches lib (observedValue lib req r) r

/-- The rule has an empty header value in the request and `checkRequired`
fails on it. -/
def missingRequired (lib : Lib) (req : Request) (r : SingleHeader) : Bool :=
  observedValue lib req r == "" && !checkRequired (observedValue lib req r) r

/-- The rule does not make `checkNone` fail: its header value in the request
is empty, or `checkRequired` holds on it. -/
def passesNone (lib : Lib) (req : Request) (r : SingleHeader) : Bool :=
  observedValue lib req r == "" || checkRequired (observedValue lib req r) r

/-! ## Worked inputs -/

/-- A fragment of the standard library for worked inputs.  `MatchString`
agrees with Go on the pattern `^$` (matches exactly the empty string) and on
patterns without metacharacters (an unanchored literal search);
`QueryUnescape` agrees with Go on strings without `%` and `+`. -/
def sampleLib : Lib :=
  { MatchString := fun pattern s =>
      if pattern = "^$" then (decide (s = ""), none) else (Contains s pattern, none)
    QueryUnescape := fun s => (s, none) }

/-- A request with a single header. -/
def requestWith (name value : String) : Request :=
  { Get := fun n => if n = name then value else "" }

/-- A request without any of the headers looked up. -/
def emptyRequest : Request :=
  { Get := fun _ => "" }

/-- A rule with the given name, match type and values and no flag set. -/
def plainRule (name matchType : String) (values : List String) : SingleHeader :=
  { Name := name, Values := values, MatchType := matchType, Required := none,
    Contains := none, URLDecode := none, Debug := none, Regex := none }

/-- A configuration with the given rules and top-level match type and no
custom denial response. -/
def sampleConfig (headers : List SingleHeader) (matchType : String) : Config :=
  { Headers := headers, MatchType := matchType, Error := { StatusCode := 0, Message := "" } }

/-- The rule of the test `MatchAllContainConfig`: every one of `d` and `e`
must be contained in `Content-Language`. -/
def allContainsRule : SingleHeader :=
  { plainRule "Content-Language" "all" ["d", "e"] with
    Required := some true, Contains := some true }

/-- The rule of the test `MatchNoneConfig`: `Content-Language` is required and
must be none of `de-DE` and `de-AT`. -/
def noneRequiredRule : SingleHeader :=
  { plainRule "Content-Language" "none" ["de-DE", "de-AT"] with Required := some true }

/-- The rule of the test `MatchOneOptionalConfig`: `Content-Language` is
optional and must be one of `de-DE` and `de-AT`. -/
def oneOptionalRule : SingleHeader :=
  { plainRule "Content-Language" "one" ["de-DE", "de-AT"] with Required := some false }

/-- An optional rule with match type `none` and the single pattern `^$`. -/
def noneEmptyPatternRule : SingleHeader :=
  { plainRule "X-Token" "none" ["^$"] with Required := some false, Regex := some true }

/-- The first rule of the test `matchTopLevelOneConfig`. -/
def languageRule : SingleHeader :=
  { plainRule "Content-Language" "one" ["de-DE", "de-AT"] with Required := some true }

/-- The second rule of the test `matchTopLevelOneConfig`. -/
def typeRule : SingleHeader :=
  { plainRule "Content-Type" "one" ["application/json"] with Required := some true }

/-- A larger fragment of the standard library for worked inputs.
`MatchString` reports the pattern `[` as an error (Go: missing closing `]`)
and is `sampleLib.MatchString` on every other pattern; `QueryUnescape` is the
model of Go's function. -/
def goLib : Lib :=
  { MatchString := fun pattern s =>
      if pattern = "[" then (false, some "error parsing regexp: missing closing ]")
      else sampleLib.MatchString pattern s
    QueryUnescape := QueryUnescape }

/-- The rule with its `debug` flag replaced. -/
def withDebug (debug : Option Bool) (r : SingleHeader) : SingleHeader :=
  { r with Debug := debug }

/-- The rule with its `urldecode` flag unset. -/
def withoutURLDecode (r : SingleHeader) : SingleHeader :=
  { r with URLDecode := none }

/-- The second rule of the test `matchTopLevelNoneConfig`. -/
def typeNoneRule : SingleHeader :=
  { plainRule "Content-Type" "none" ["application/json"] with Required := some true }

/-- The rule of the test `InvalidRegex`: the single pattern `[`. -/
def invalidRegexRule : SingleHeader :=
  { plainRule "Content-Language" "one" ["["] with Regex := some true }

/-- The rule of the test `InvalidRegex` with match type `none`. -/
def invalidRegexNoneRule : SingleHeader :=
  { plainRule "Content-Language" "none" ["["] with Regex := some true }

/-- A required rule with URL decoding that accepts the value `%`. -/
def percentRule : SingleHeader :=
  { plainRule "X-Token" "one" ["%"] with Required := some true, URLDecode := some true }

/-- A rule with URL decoding and containment, after the test
`matchAllUrlDecodeConfig`. -/
def certRule : SingleHeader :=
  { plainRule "X-Forwarded-Tls-Client-Cert-Info" "all" ["CN=common-name", "SAN=\"x\""] with
    Required := some true, Contains := some true, URLDecode := some true }

/-- A configuration with the custom denial response `404`, `Not Found`. -/
def notFoundConfig : Config :=
  { Headers := [languageRule], MatchType := "",
    Error := { StatusCode := 404, Message := "Not Found" } }

/-- The rule with its `required` flag replaced. -/
def withRequired (required : Option Bool) (r : SingleHeader) : SingleHeader :=
  { r with Required := required }

/-- The rule with its `contains` and `regex` flags replaced. -/
def withStrategy (contains regex : Option Bool) (r : SingleHeader) : SingleHeader :=
  { r with Contains := contains, Regex := regex }

/-- A rule with the match type `ALL`, which is not the constant `MatchAll`,
and no strategy flag. -/
def upperAllRule : SingleHeader :=
  plainRule "Content-Language" "ALL" ["de-DE"]

/-! ## Construction: lemmas -/

theorem checkValues_ok_iff (values : List String) :
    checkValues values = .ok () ↔ ∀ value ∈ values, TrimSpace value ≠ "" := by
  induction values with
  | nil => simp [checkValues]
  | cons value rest ih =>
    by_cases h : TrimSpace value = ""
    · simp [checkValues, h]
    · simp [checkValues, h, ih]

theorem checkValues_error (values : List String) (e : String)
    (h : checkValues values = .error e) :
    e = "validate-headers: configuration incorrect, empty value found" := by
  induction values with
  | nil => simp [checkValues] at h
  | cons value rest ih =>
    by_cases hv : TrimSpace value = ""
    · simp [checkValues, hv] at h
      exact h.symm
    · simp [checkValues, hv] at h
      exact ih h

theorem checkValues_blank (values : List String)
    (h : ∃ value ∈ values, TrimSpace value = "") :
    checkValues values =
      .error "validate-headers: configuration incorrect, empty value found" := by
  cases hc : checkValues values with
  | error e => rw [checkValues_error values e hc]
  | ok u =>
    obtain ⟨value, hmem, hblank⟩ := h
    exact absurd hblank ((checkValues_ok_iff values).1 hc value hmem)

theorem allWithoutStrategy_iff (r : SingleHeader) :
    (r.MatchType == MatchAll && !(r.IsContains || r.IsRegex)) = true ↔
      (r.MatchType = "all" ∧ r.IsContains = false ∧ r.IsRegex = false) := by
  simp [MatchAll]

theorem checkHeader_ok_iff (r : SingleHeader) :
    checkHeader r = .ok () ↔ RuleValid r := by
  unfold checkHeader RuleValid
  rw [← allWithoutStrategy_iff]
  generalize (r.MatchType == MatchAll && !(r.IsContains || r.IsRegex)) = b
  split_ifs with h1 h2 h3 h4
  · simp [h1]
  · simp [h2]
  · simp [h3]
  · simp [List.length_eq_zero.1 h4]
  · rw [checkValues_ok_iff]
    have h4b : r.Values ≠ [] := fun h => h4 (by simp [h])
    simp [h1, h2, h3, h4b]

theorem checkHeaders_ok_iff (headers : List SingleHeader) :
    checkHeaders headers = .ok () ↔ ∀ r ∈ headers, RuleValid r := by
  induction headers with
  | nil => simp [checkHeaders]
  | cons r rest ih =>
    cases h : checkHeader r with
    | error e =>
      have hr : ¬RuleValid r := by
        rw [← checkHeader_ok_iff, h]; simp
      simp [checkHeaders, h, hr]
    | ok u =>
      have hr : RuleValid r := (checkHeader_ok_iff r).1 h
      simp [checkHeaders, h, hr, ih]

theorem checkHeaders_first_error (pre : List SingleHeader) (r : SingleHeader)
    (post : List SingleHeader) (e : String) (hpre : ∀ p ∈ pre, RuleValid p)
    (hr : checkHeader r = .error e) :
    checkHeaders (pre ++ r :: post) = .error e := by
  induction pre with
  | nil => simp [checkHeaders, hr]
  | cons p pre ih =>
    have hp : checkHeader p = .ok () :=
      (checkHeader_ok_iff p).2 (hpre p (List.mem_cons_self p pre))
    have hrest : ∀ q ∈ pre, RuleValid q := fun q hq => hpre q (List.mem_cons_of_mem p hq)
    simp [checkHeaders, hp, ih hrest]

theorem fillDefaults_Headers (config : Config) :
    (fillDefaults config).Headers = config.Headers := by
  unfold fillDefaults
  by_cases h1 : config.Error.StatusCode = 0 <;> by_cases h2 : config.Error.Message = "" <;>
    simp [h1, h2]

theorem New_eq_of_nonempty (config : Config) (name : String) (h : config.Headers ≠ []) :
    New config name =
      match checkHeaders config.Headers with
      | .error e => .error e
      | .ok () =>
        .ok { headers := config.Headers, config := fillDefaults config, name := name } := by
  unfold New
  simp only [List.length_eq_zero, h, if_false, fillDefaults_Headers]

theorem New_ok_headers (config : Config) (name : String) (v : Validator)
    (h : New config name = .ok v) :
    v.headers = config.Headers ∧ config.Headers ≠ [] ∧ ∀ r ∈ config.Headers, RuleValid r := by
  by_cases hne : config.Headers = []
  · simp [New, hne] at h
  · rw [New_eq_of_nonempty config name hne] at h
    cases hc : checkHeaders config.Headers with
    | error e => simp [hc] at h
    | ok u =>
      simp [hc] at h
      exact ⟨by rw [← h], hne, (checkHeaders_ok_iff _).1 hc⟩

theorem TrimSpace_eq_empty_iff (s : String) :
    TrimSpace s = "" ↔ ∀ c ∈ s.data, isSpace c = true := by
  have hd : ∀ l : List Char, (∀ c ∈ l.dropWhile isSpace, isSpace c = true) ↔
      ∀ c ∈ l, isSpace c = true := by
    intro l
    induction l with
    | nil => simp
    | cons a l ih =>
      by_cases ha : isSpace a = true
      · simp [List.dropWhile_cons, ha, ih]
      · simp [List.dropWhile_cons, ha]
  have h1 : TrimSpace s = "" ↔
      ((s.data.dropWhile isSpace).reverse.dropWhile isSpace).reverse = [] := by
    unfold TrimSpace
    constructor
    · intro h
      exact congrArg String.data h
    · intro h
      rw [h]
  rw [h1, List.reverse_eq_nil_iff, List.dropWhile_eq_nil_iff]
  simp only [List.mem_reverse]
  exact hd s.data

theorem exists_first_invalid (headers : List SingleHeader)
    (h : ¬∀ r ∈ headers, RuleValid r) :
    ∃ pre r post, headers = pre ++ r :: post ∧ (∀ p ∈ pre, RuleValid p) ∧ ¬RuleValid r := by
  induction headers with
  | nil => simp at h
  | cons a rest ih =>
    by_cases ha : RuleValid a
    · have hrest : ¬∀ r ∈ rest, RuleValid r := by
        intro hall
        apply h
        intro r hr
        rcases List.mem_cons.1 hr with rfl | hr
        · exact ha
        · exact hall r hr
      obtain ⟨pre, r, post, hsplit, hpre, hr⟩ := ih hrest
      refine ⟨a :: pre, r, post, by simp [hsplit], ?_, hr⟩
      intro p hp
      rcases List.mem_cons.1 hp with rfl | hp
      · exact ha
      · exact hpre p hp
    · exact ⟨[], a, rest, rfl, by simp, ha⟩

theorem New_first_invalid (config : Config) (name : String) (pre : List SingleHeader)
    (r : SingleHeader) (post : List SingleHeader) (e : String)
    (hsplit : config.Headers = pre ++ r :: post) (hpre : ∀ p ∈ pre, RuleValid p)
    (hr : checkHeader r = .error e) :
    New config name = .error e := by
  have hne : config.Headers ≠ [] := by simp [hsplit]
  rw [New_eq_of_nonempty config name hne, hsplit,
    checkHeaders_first_error pre r post e hpre hr]

theorem New_ok_iff_valid (config : Config) (name : String) :
    (∃ v, New config name = .ok v) ↔
      (config.Headers ≠ [] ∧ ∀ r ∈ config.Headers, RuleValid r) := by
  constructor
  · rintro ⟨v, hv⟩
    exact (New_ok_headers config name v hv).2
  · rintro ⟨hne, hall⟩
    rw [New_eq_of_nonempty config name hne, (checkHeaders_ok_iff _).2 hall]
    exact ⟨_, rfl⟩

theorem New_error_iff_not_ok (config : Config) (name : String) :
    (∃ e, New config name = .error e) ↔ ¬∃ v, New config name = .ok v := by
  cases h : New config name with
  | error e => simp
  | ok v => simp

/-! ## Evaluation of one rule: lemmas -/

theorem containsCount_eq (requestValue : String) (values : List String) (n : Nat) :
    containsCount requestValue values n =
      n + (values.filter (fun value => Contains requestValue value)).length := by
  induction values generalizing n with
  | nil => simp [containsCount]
  | cons value rest ih =>
    by_cases h : Contains requestValue value = true
    · simp [containsCount, h, ih, List.filter_cons]
      omega
    · simp [containsCount, h, ih, List.filter_cons]

theorem regexCount_eq (lib : Lib) (requestValue : String) (debug : Bool)
    (values : List String) (n : Nat) :
    regexCount lib requestValue debug values n =
      n + (values.filter (fun value =>
        (lib.MatchString value requestValue).1 &&
          (lib.MatchString value requestValue).2.isNone)).length := by
  induction values generalizing n with
  | nil => simp [regexCount]
  | cons value rest ih =>
    rcases hm : lib.MatchString value requestValue with ⟨isMatch, err⟩
    cases err with
    | none =>
      cases isMatch
      · simp [regexCount, hm, ih, List.filter_cons]
      · simp [regexCount, hm, ih, List.filter_cons]
        omega
    | some e =>
      simp [regexCount, hm, ih, List.filter_cons]

theorem requiredCount_eq (requestValue : String) (required : Bool)
    (values : List String) (n : Nat) :
    requiredCount requestValue required values n =
      n + (values.filter (fun value => requestValue == value)).length +
        (if (!required && requestValue == "") = true then values.length else 0) := by
  induction values generalizing n with
  | nil => simp [requiredCount]
  | cons value rest ih =>
    unfold requiredCount
    simp only [ih]
    cases required <;> by_cases hv : requestValue = "" <;>
      by_cases h1 : requestValue = value <;>
      simp [hv, h1, List.filter_cons] <;> (try split_ifs) <;> (try simp_all) <;> omega

theorem filter_length_eq_length_iff {α : Type} (p : α → Bool) (l : List α) :
    (l.filter p).length = l.length ↔ ∀ a ∈ l, p a = true := by
  induction l with
  | nil => simp
  | cons a l ih =>
    have hle := List.length_filter_le p l
    by_cases h : p a = true
    · simp [List.filter_cons, h, ih]
    · simp [List.filter_cons, h]
      omega

theorem filter_length_pos_iff {α : Type} (p : α → Bool) (l : List α) :
    0 < (l.filter p).length ↔ ∃ a ∈ l, p a = true := by
  rw [List.length_pos, ne_eq, List.filter_eq_nil_iff]
  simp

theorem containsChars_nil (sub : List Char) (h : sub ≠ []) : containsChars [] sub = false := by
  cases sub with
  | nil => exact absurd rfl h
  | cons d sub => rfl

theorem Contains_empty (value : String) (h : value ≠ "") : Contains "" value = false := by
  unfold Contains
  apply containsChars_nil
  intro hd
  apply h
  cases value
  simp_all

theorem ne_empty_of_TrimSpace_ne (value : String) (h : TrimSpace value ≠ "") : value ≠ "" := by
  intro hv
  apply h
  rw [hv]
  rfl

/-- On the empty header value `checkRequired` of a rule with at least one
value, none of them empty, is the negation of `required`. -/
theorem checkRequired_empty_eq (r : SingleHeader) (hne : r.Values ≠ [])
    (hvals : ∀ value ∈ r.Values, value ≠ "") :
    checkRequired "" r = !r.IsRequired := by
  unfold checkRequired
  by_cases hm : r.MatchType = MatchNone
  · simp [hm]
  · have hfilter : r.Values.filter (fun value => ("" : String) == value) = [] := by
      rw [List.filter_eq_nil_iff]
      intro value hv
      have := hvals value hv
      simpa using fun h => this h.symm
    have hlen : 0 < r.Values.length := List.length_pos.2 hne
    rw [if_neg hm, requiredCount_eq, hfilter]
    cases hreq : r.IsRequired
    · simp [hlen]
    · simp

/-- On a non-empty header value the loop of `checkRequired` counts the
configured values equal to it. -/
theorem requiredCount_nonempty (requestValue : String) (required : Bool)
    (values : List String) (h : requestValue ≠ "") :
    requiredCount requestValue required values 0 =
      (values.filter (fun value => requestValue == value)).length := by
  rw [requiredCount_eq]
  simp [h]

theorem matchCount_contains (lib : Lib) (r : SingleHeader) (observed : String)
    (h : r.IsContains = true) :
    matchCount lib r observed = containsCount observed r.Values 0 := by
  have hf : valueMatches lib r observed = fun value => Contains observed value := by
    funext value
    simp [valueMatches, h]
  rw [containsCount_eq, matchCount, hf]
  simp

theorem matchCount_regex (lib : Lib) (r : SingleHeader) (observed : String)
    (hc : r.IsContains = false) (h : r.IsRegex = true) :
    matchCount lib r observed = regexCount lib observed r.IsDebug r.Values 0 := by
  have hf : valueMatches lib r observed = fun value =>
      (lib.MatchString value observed).1 && (lib.MatchString value observed).2.isNone := by
    funext value
    simp [valueMatches, h, hc]
  rw [regexCount_eq, matchCount, hf]
  simp

theorem matchCount_equals (lib : Lib) (r : SingleHeader) (observed : String)
    (hc : r.IsContains = false) (h : r.IsRegex = false) (hne : observed ≠ "") :
    matchCount lib r observed = requiredCount observed r.IsRequired r.Values 0 := by
  have hf : valueMatches lib r observed = fun value => observed == value := by
    funext value
    simp [valueMatches, h, hc]
  rw [requiredCount_nonempty _ _ _ hne, matchCount, hf]

theorem beq_zero_eq_decide (n : Nat) : (n == 0) = decide (n = 0) := by
  cases n <;> simp

/-- The result of `checkMatches` on a non-empty header value, by match type,
in terms of the number of configured values that match. -/
theorem checkMatches_eq (lib : Lib) (r : SingleHeader) (observed : String)
    (hne : observed ≠ "") :
    checkMatches lib observed r =
      if r.MatchType = "none" then decide (matchCount lib r observed = 0)
      else if r.MatchType = "all" ∧ (r.IsContains = true ∨ r.IsRegex = true) then
        decide (matchCount lib r observed ≠ 0 ∧ matchCount lib r observed = r.Values.length)
      else decide (matchCount lib r observed > 0) := by
  unfold checkMatches
  by_cases hc : r.IsContains = true
  · rw [if_pos hc, matchCount_contains lib r observed hc]
    unfold checkContains
    by_cases hn : r.MatchType = "none"
    · simp [MatchNone, hn, beq_zero_eq_decide]
    · by_cases ha : r.MatchType = "all"
      · simp [MatchNone, MatchAll, hn, ha, hc]
      · simp [MatchNone, MatchAll, hn, ha, Nat.pos_iff_ne_zero]
  · have hc2 : r.IsContains = false := by simpa using hc
    rw [if_neg hc]
    by_cases hx : r.IsRegex = true
    · rw [if_pos hx, matchCount_regex lib r observed hc2 hx]
      unfold checkRegex
      by_cases hn : r.MatchType = "none"
      · simp [MatchNone, hn, beq_zero_eq_decide]
      · by_cases ha : r.MatchType = "all"
        · simp [MatchNone, MatchAll, hn, ha, hx]
        · simp [MatchNone, MatchAll, hn, ha, Nat.pos_iff_ne_zero]
    · have hx2 : r.IsRegex = false := by simpa using hx
      rw [if_neg hx, matchCount_equals lib r observed hc2 hx2 hne]
      unfold checkRequired
      by_cases hn : r.MatchType = "none"
      · simp [MatchNone, hn, hne, beq_zero_eq_decide]
      · simp [MatchNone, hn, hc2, hx2]

/-! ## Evaluation of a request: lemmas -/

theorem checkAllLoop_cons (lib : Lib) (req : Request) (r : SingleHeader)
    (rest : List SingleHeader) (isValid : Bool) :
    checkAllLoop lib req (r :: rest) isValid =
      if (!isValid) = true then false
      else if observedValue lib req r ≠ "" then
        if (!checkMatches lib (observedValue lib req r) r) = true then
          checkAllLoop lib req rest false
        else checkAllLoop lib req rest isValid
      else
        if (!checkRequired (observedValue lib req r) r) = true then
          checkAllLoop lib req rest false
        else checkAllLoop lib req rest isValid := rfl

theorem checkOneLoop_cons_observed (lib : Lib) (req : Request) (r : SingleHeader)
    (rest : List SingleHeader) (isValid : Bool) :
    checkOneLoop lib req (r :: rest) isValid =
      if observedValue lib req r ≠ "" then
        if checkMatches lib (observedValue lib req r) r = true then
          checkOneLoop lib req rest true
        else checkOneLoop lib req rest isValid
      else
        if (!checkRequired (observedValue lib req r) r) = true then
          checkOneLoop lib req rest false
        else checkOneLoop lib req rest isValid := rfl

theorem checkAllLoop_false (lib : Lib) (req : Request) (headers : List SingleHeader) :
    checkAllLoop lib req headers false = false := by
  cases headers <;> simp [checkAllLoop]

theorem checkAllLoop_eq (lib : Lib) (req : Request) (headers : List SingleHeader)
    (isValid : Bool) :
    checkAllLoop lib req headers isValid = (isValid && headers.all (verdict lib req)) := by
  induction headers generalizing isValid with
  | nil => simp [checkAllLoop]
  | cons r rest ih =>
    cases isValid with
    | false => simp [checkAllLoop]
    | true =>
      rw [checkAllLoop_cons, List.all_cons]
      simp only [ih]
      unfold verdict verdictOn
      generalize observedValue lib req r = o
      by_cases hobs : o = ""
      · cases hc : checkRequired o r <;> simp [hobs, hc]
      · cases hc : checkMatches lib o r <;> simp [hobs, hc]

theorem matchesPresent_verdict (lib : Lib) (req : Request) (r : SingleHeader)
    (h : matchesPresent lib req r = true) : verdict lib req r = true := by
  unfold matchesPresent at h
  unfold verdict verdictOn
  by_cases hobs : observedValue lib req r = ""
  · simp [hobs] at h
  · simpa [hobs] using h

theorem checkOneLoop_cons (lib : Lib) (req : Request) (r : SingleHeader)
    (rest : List SingleHeader) (isValid : Bool) :
    checkOneLoop lib req (r :: rest) isValid =
      checkOneLoop lib req rest
        ((isValid && !missingRequired lib req r) || matchesPresent lib req r) := by
  rw [checkOneLoop_cons_observed]
  unfold matchesPresent missingRequired
  generalize observedValue lib req r = o
  by_cases hobs : o = ""
  · cases hc : checkRequired o r <;> simp [hobs, hc]
  · have hb : (o == "") = false := by simpa using hobs
    have hn : (o != "") = true := by simpa using hobs
    cases hc : checkMatches lib o r <;> simp [hobs, hc, hb, hn]

theorem checkOneLoop_append (lib : Lib) (req : Request) (xs ys : List SingleHeader)
    (isValid : Bool) :
    checkOneLoop lib req (xs ++ ys) isValid =
      checkOneLoop lib req ys (checkOneLoop lib req xs isValid) := by
  induction xs generalizing isValid with
  | nil => simp [checkOneLoop]
  | cons r rest ih => simp only [List.cons_append, checkOneLoop_cons, ih]

theorem checkOneLoop_true_iff (lib : Lib) (req : Request) (headers : List SingleHeader)
    (isValid : Bool) :
    checkOneLoop lib req headers isValid = true ↔
      (isValid = true ∧ ∀ q ∈ headers, missingRequired lib req q = false) ∨
      ∃ pre r post, headers = pre ++ r :: post ∧ matchesPresent lib req r = true ∧
        ∀ q ∈ post, missingRequired lib req q = false := by
  induction headers generalizing isValid with
  | nil => simp [checkOneLoop]
  | cons a rest ih =>
    rw [checkOneLoop_cons, ih]
    constructor
    · rintro (⟨hb, hall⟩ | ⟨pre, r, post, hsplit, hmp, hpost⟩)
      · by_cases hmp : matchesPresent lib req a = true
        · exact Or.inr ⟨[], a, rest, rfl, hmp, hall⟩
        · left
          have hmp2 : matchesPresent lib req a = false := by simpa using hmp
          rw [hmp2, Bool.or_false, Bool.and_eq_true] at hb
          refine ⟨hb.1, ?_⟩
          intro q hq
          rcases List.mem_cons.1 hq with rfl | hq
          · simpa using hb.2
          · exact hall q hq
      · exact Or.inr ⟨a :: pre, r, post, by simp [hsplit], hmp, hpost⟩
    · rintro (⟨hb, hall⟩ | ⟨pre, r, post, hsplit, hmp, hpost⟩)
      · left
        have ha := hall a (List.mem_cons_self a rest)
        exact ⟨by simp [hb, ha], fun q hq => hall q (List.mem_cons_of_mem a hq)⟩
      · cases pre with
        | nil =>
          simp only [List.nil_append, List.cons.injEq] at hsplit
          obtain ⟨rfl, rfl⟩ := hsplit
          exact Or.inl ⟨by simp [hmp], hpost⟩
        | cons p pre =>
          simp only [List.cons_append, List.cons.injEq] at hsplit
          obtain ⟨_, hrest⟩ := hsplit
          exact Or.inr ⟨pre, r, post, hrest, hmp, hpost⟩

theorem checkOne_eq_any (lib : Lib) (req : Request) (headers : List SingleHeader)
    (h : ∀ q ∈ headers, missingRequired lib req q = false) :
    checkOne lib headers req = headers.any (matchesPresent lib req) := by
  rw [Bool.eq_iff_iff]
  unfold checkOne
  rw [checkOneLoop_true_iff, List.any_eq_true]
  constructor
  · rintro (⟨hb, _⟩ | ⟨pre, r, post, hsplit, hmp, _⟩)
    · exact absurd hb (by simp)
    · exact ⟨r, by simp [hsplit], hmp⟩
  · rintro ⟨r, hr, hmp⟩
    obtain ⟨pre, post, hsplit⟩ := List.append_of_mem hr
    refine Or.inr ⟨pre, r, post, hsplit, hmp, ?_⟩
    intro q hq
    exact h q (by simp [hsplit, hq])

/-! ## Construction: the configuration checks -/

/-- C1: `New` returns a Validator and no error exactly when the configuration
has at least one header rule and every rule has a name and a match type that
are non-empty after trimming, is not match type `all` without `contains` or
`regex`, has a non-empty list of values and no value made of white space only;
in every other case it returns an error and no Validator. -/
theorem New_succeeds_iff (config : Config) (name : String) :
    ((∃ v, New config name = .ok v) ↔
      (config.Headers ≠ [] ∧ ∀ r ∈ config.Headers,
        TrimSpace r.Name ≠ "" ∧ TrimSpace r.MatchType ≠ "" ∧
        ¬(r.MatchType = "all" ∧ r.IsContains = false ∧ r.IsRegex = false) ∧
        r.Values ≠ [] ∧
        ∀ value ∈ r.Values, ¬(value = "" ∨ ∀ c ∈ value.data, isSpace c = true))) ∧
    ((∃ e, New config name = .error e) ↔
      ¬(config.Headers ≠ [] ∧ ∀ r ∈ config.Headers,
        TrimSpace r.Name ≠ "" ∧ TrimSpace r.MatchType ≠ "" ∧
        ¬(r.MatchType = "all" ∧ r.IsContains = false ∧ r.IsRegex = false) ∧
        r.Values ≠ [] ∧
        ∀ value ∈ r.Values, ¬(value = "" ∨ ∀ c ∈ value.data, isSpace c = true))) := by
  have hblank : ∀ value : String,
      (¬(value = "" ∨ ∀ c ∈ value.data, isSpace c = true)) ↔ TrimSpace value ≠ "" := by
    intro value
    rw [Ne, TrimSpace_eq_empty_iff]
    constructor
    · intro h hall
      exact h (Or.inr hall)
    · intro h hor
      rcases hor with rfl | hall
      · exact h (by simp)
      · exact h hall
  have hvalid : (config.Headers ≠ [] ∧ ∀ r ∈ config.Headers,
        TrimSpace r.Name ≠ "" ∧ TrimSpace r.MatchType ≠ "" ∧
        ¬(r.MatchType = "all" ∧ r.IsContains = false ∧ r.IsRegex = false) ∧
        r.Values ≠ [] ∧
        ∀ value ∈ r.Values, ¬(value = "" ∨ ∀ c ∈ value.data, isSpace c = true)) ↔
      (config.Headers ≠ [] ∧ ∀ r ∈ config.Headers, RuleValid r) := by
    simp only [hblank, RuleValid]
  rw [hvalid, New_error_iff_not_ok, New_ok_iff_valid]
  exact ⟨Iff.rfl, Iff.rfl⟩

/-- C2: the error of a rejected configuration is that of the first failing
check: "missing headers" for an empty rule list; otherwise, for the first rule
in list order that violates a check (every earlier rule being valid), the
missing-name error before the match-all error before the missing-match-type
error before the missing-values error before the empty-value error.  Every
rejected configuration falls under one of these cases. -/
theorem New_error_order (config : Config) (name : String) :
    (config.Headers = [] →
      New config name = .error "validate-headers: configuration incorrect, missing headers") ∧
    (∀ pre r post, config.Headers = pre ++ r :: post → (∀ p ∈ pre, RuleValid p) →
      (TrimSpace r.Name = "" →
        New config name =
          .error "validate-headers: configuration incorrect, missing header name") ∧
      (TrimSpace r.Name ≠ "" →
        (r.MatchType = "all" ∧ r.IsContains = false ∧ r.IsRegex = false) →
        New config name =
          .error ("validate-headers: configuration incorrect for header " ++ r.Name ++
            ", match-all can only be used in combination with \x27contains\x27 or \x27regex\x27")) ∧
      (TrimSpace r.Name ≠ "" →
        ¬(r.MatchType = "all" ∧ r.IsContains = false ∧ r.IsRegex = false) →
        TrimSpace r.MatchType = "" →
        New config name =
          .error
            ("validate-headers: configuration incorrect, missing match type configuration for header "
              ++ r.Name)) ∧
      (TrimSpace r.Name ≠ "" →
        ¬(r.MatchType = "all" ∧ r.IsContains = false ∧ r.IsRegex = false) →
        TrimSpace r.MatchType ≠ "" → r.Values = [] →
        New config name =
          .error "validate-headers: configuration incorrect, missing header values") ∧
      (TrimSpace r.Name ≠ "" →
        ¬(r.MatchType = "all" ∧ r.IsContains = false ∧ r.IsRegex = false) →
        TrimSpace r.MatchType ≠ "" → r.Values ≠ [] →
        (∃ value ∈ r.Values, TrimSpace value = "") →
        New config name =
          .error "validate-headers: configuration incorrect, empty value found")) ∧
    ((∃ e, New config name = .error e) →
      config.Headers = [] ∨
      ∃ pre r post, config.Headers = pre ++ r :: post ∧ (∀ p ∈ pre, RuleValid p) ∧
        ¬RuleValid r) := by
  refine ⟨?_, ?_, ?_⟩
  · intro h
    simp [New, h]
  · intro pre r post hsplit hpre
    refine ⟨?_, ?_, ?_, ?_, ?_⟩
    · intro h1
      apply New_first_invalid config name pre r post _ hsplit hpre
      simp [checkHeader, h1]
    · intro h1 h2
      apply New_first_invalid config name pre r post _ hsplit hpre
      have h2b := (allWithoutStrategy_iff r).2 h2
      unfold checkHeader
      rw [if_neg h1, if_pos h2b]
    · intro h1 h2 h3
      apply New_first_invalid config name pre r post _ hsplit hpre
      have h2b := fun h => h2 ((allWithoutStrategy_iff r).1 h)
      unfold checkHeader
      rw [if_neg h1, if_neg h2b, if_pos h3]
    · intro h1 h2 h3 h4
      apply New_first_invalid config name pre r post _ hsplit hpre
      have h2b := fun h => h2 ((allWithoutStrategy_iff r).1 h)
      unfold checkHeader
      rw [if_neg h1, if_neg h2b, if_neg h3, if_pos (by simp [h4])]
    · intro h1 h2 h3 h4 h5
      apply New_first_invalid config name pre r post _ hsplit hpre
      have h2b := fun h => h2 ((allWithoutStrategy_iff r).1 h)
      have h4b : ¬r.Values.length = 0 := fun h => h4 (List.length_eq_zero.1 h)
      unfold checkHeader
      rw [if_neg h1, if_neg h2b, if_neg h3, if_neg h4b]
      exact checkValues_blank r.Values h5
  · intro herr
    by_cases hne : config.Headers = []
    · exact Or.inl hne
    · right
      apply exists_first_invalid
      intro hall
      have hok := (New_ok_iff_valid config name).2 ⟨hne, hall⟩
      exact (New_error_iff_not_ok config name).1 herr hok

/-- A use of C2: a valid rule followed by a rule with neither a name nor a
match type nor values is rejected with the missing-name error, the first of
the three checks the second rule fails. -/
theorem New_error_order_witness :
    New { Headers := [plainRule "Content-Language" "one" ["de-DE"], plainRule " " "" []],
          MatchType := "all", Error := { StatusCode := 0, Message := "" } } "validator" =
      .error "validate-headers: configuration incorrect, missing header name" :=
  ((New_error_order
      { Headers := [plainRule "Content-Language" "one" ["de-DE"], plainRule " " "" []],
        MatchType := "all", Error := { StatusCode := 0, Message := "" } } "validator").2.1
    [plainRule "Content-Language" "one" ["de-DE"]] (plainRule " " "" []) [] rfl
    (by
      intro p hp
      rw [List.mem_singleton.1 hp]
      exact (checkHeader_ok_iff _).1 rfl)).1 (by decide)

/-- C3, as amended: in every Validator returned by `New`, every rule whose
match type is `all` has `contains` or `regex` set; a configuration holding a
rule with match type `all` and neither flag is rejected, and the error is the
match-all error naming the header when that rule has a non-blank name and
every earlier rule is valid. -/
theorem New_all_requires_strategy (config : Config) (name : String) :
    (∀ v, New config name = .ok v → ∀ r ∈ v.headers, r.MatchType = "all" →
      (r.IsContains = true ∨ r.IsRegex = true)) ∧
    (∀ r ∈ config.Headers, r.MatchType = "all" → r.IsContains = false → r.IsRegex = false →
      (∃ e, New config name = .error e) ∧
      (∀ pre post, config.Headers = pre ++ r :: post → (∀ p ∈ pre, RuleValid p) →
        TrimSpace r.Name ≠ "" →
        New config name =
          .error ("validate-headers: configuration incorrect for header " ++ r.Name ++
            ", match-all can only be used in combination with \x27contains\x27 or \x27regex\x27"))) := by
  constructor
  · intro v hv r hr hall
    obtain ⟨hh, _, hvalid⟩ := New_ok_headers config name v hv
    have hrv := hvalid r (hh ▸ hr)
    have h3 := hrv.2.2.1
    by_cases hc : r.IsContains = true
    · exact Or.inl hc
    · by_cases hx : r.IsRegex = true
      · exact Or.inr hx
      · exact absurd ⟨hall, by simpa using hc, by simpa using hx⟩ h3
  · intro r hr hall hc hx
    constructor
    · rw [New_error_iff_not_ok, New_ok_iff_valid]
      rintro ⟨_, hvalid⟩
      exact (hvalid r hr).2.2.1 ⟨hall, hc, hx⟩
    · intro pre post hsplit hpre hname
      apply New_first_invalid config name pre r post _ hsplit hpre
      have h2b := (allWithoutStrategy_iff r).2 ⟨hall, hc, hx⟩
      unfold checkHeader
      rw [if_neg hname, if_pos h2b]

/-- A use of C3: the rule of the test `MatchAllConfig`, match type `all` with
values `d` and `e` and no strategy flag, is rejected with the match-all
error. -/
theorem New_all_requires_strategy_witness :
    New { Headers := [plainRule "Content-Language" "all" ["d", "e"]],
          MatchType := "all", Error := { StatusCode := 0, Message := "" } } "validator" =
      .error ("validate-headers: configuration incorrect for header Content-Language" ++
        ", match-all can only be used in combination with \x27contains\x27 or \x27regex\x27") :=
  ((New_all_requires_strategy
      { Headers := [plainRule "Content-Language" "all" ["d", "e"]],
        MatchType := "all", Error := { StatusCode := 0, Message := "" } } "validator").2
    (plainRule "Content-Language" "all" ["d", "e"]) (List.mem_singleton.2 rfl)
    rfl rfl rfl).2 [] [] rfl (by simp) (by decide)

/-- C3, the claim as stated fails: a rule with match type `all`, neither
`contains` nor `regex`, values `d` and `e` and an empty name makes `New` fail
with the missing-name error, not with the match-all error. -/
theorem New_all_without_name_counterexample :
    (plainRule "" "all" ["d", "e"]).MatchType = "all" ∧
    (plainRule "" "all" ["d", "e"]).IsContains = false ∧
    (plainRule "" "all" ["d", "e"]).IsRegex = false ∧
    New { Headers := [plainRule "" "all" ["d", "e"]],
          MatchType := "all", Error := { StatusCode := 0, Message := "" } } "validator" =
      .error "validate-headers: configuration incorrect, missing header name" ∧
    New { Headers := [plainRule "" "all" ["d", "e"]],
          MatchType := "all", Error := { StatusCode := 0, Message := "" } } "validator" ≠
      .error ("validate-headers: configuration incorrect for header " ++
        ", match-all can only be used in combination with \x27contains\x27 or \x27regex\x27") := by
  refine ⟨rfl, rfl, rfl, rfl, ?_⟩
  intro h
  have h2 : ("validate-headers: configuration incorrect, missing header name" : String) =
      "validate-headers: configuration incorrect for header " ++
        ", match-all can only be used in combination with \x27contains\x27 or \x27regex\x27" :=
    Except.error.inj h
  exact absurd h2 (by decide)

/-! ## Evaluation of one rule -/

/-- C4: for a rule accepted by `New` and a non-empty header value,
`checkMatches` is the combinator of the match type applied to the number of
configured values matched under the strategy of the rule: with match type
`all` it is true exactly when the number equals the number of values, that is
when every configured value matches; with match type `one` exactly when the
number is positive, that is when at least one configured value matches. -/
theorem checkMatches_all_one (lib : Lib) (config : Config) (name : String) (v : Validator)
    (hNew : New config name = .ok v) (r : SingleHeader) (hr : r ∈ v.headers)
    (requestValue : String) (hne : requestValue ≠ "") :
    (r.MatchType = "all" →
      (checkMatches lib requestValue r = true ↔
        matchCount lib r requestValue = r.Values.length) ∧
      (checkMatches lib requestValue r = true ↔
        ∀ value ∈ r.Values, valueMatches lib r requestValue value = true)) ∧
    (r.MatchType = "one" →
      (checkMatches lib requestValue r = true ↔ matchCount lib r requestValue > 0) ∧
      (checkMatches lib requestValue r = true ↔
        ∃ value ∈ r.Values, valueMatches lib r requestValue value = true)) := by
  obtain ⟨hh, _, hvalid⟩ := New_ok_headers config name v hNew
  have hrv : RuleValid r := hvalid r (hh ▸ hr)
  have hlen : 0 < r.Values.length := List.length_pos.2 hrv.2.2.2.1
  constructor
  · intro hall
    have hflag : r.IsContains = true ∨ r.IsRegex = true := by
      by_cases hc : r.IsContains = true
      · exact Or.inl hc
      · by_cases hx : r.IsRegex = true
        · exact Or.inr hx
        · exact absurd ⟨hall, by simpa using hc, by simpa using hx⟩ hrv.2.2.1
    have h1 : checkMatches lib requestValue r = true ↔
        matchCount lib r requestValue = r.Values.length := by
      rw [checkMatches_eq lib r requestValue hne]
      simp only [hall, hflag, and_self, if_true]
      simp only [show ("all" : String) ≠ "none" by decide, if_false, decide_eq_true_eq]
      constructor
      · exact fun h => h.2
      · intro h
        exact ⟨by omega, h⟩
    refine ⟨h1, ?_⟩
    rw [h1, matchCount, filter_length_eq_length_iff]
  · intro hone
    have h1 : checkMatches lib requestValue r = true ↔ matchCount lib r requestValue > 0 := by
      rw [checkMatches_eq lib r requestValue hne]
      simp [hone]
    refine ⟨h1, ?_⟩
    rw [h1, matchCount, gt_iff_lt, filter_length_pos_iff]

/-- A use of C4: the rule of the test `MatchAllContainConfig` holds on the
header value `de-DE` exactly when both of its values are counted. -/
theorem checkMatches_all_one_witness :
    (checkMatches sampleLib "de-DE" allContainsRule = true ↔
      matchCount sampleLib allContainsRule "de-DE" = allContainsRule.Values.length) :=
  ((checkMatches_all_one sampleLib (sampleConfig [allContainsRule] "") "validator"
    { headers := [allContainsRule], config := fillDefaults (sampleConfig [allContainsRule] ""),
      name := "validator" }
    rfl allContainsRule (List.mem_singleton.2 rfl) "de-DE" (by decide)).1 rfl).1

/-- C5, as amended: for a rule accepted by `New` with match type `none`, the
verdict is true exactly when the header value is non-empty and no configured
value matches it, or the header value is empty and the rule is optional.  When
no configured value matches the empty string, as is the case for every rule
that uses equality or containment, this is: no configured value matches and
the rule is optional or the header value is non-empty. -/
theorem verdictOn_none (lib : Lib) (config : Config) (name : String) (v : Validator)
    (hNew : New config name = .ok v) (r : SingleHeader) (hr : r ∈ v.headers)
    (hnone : r.MatchType = "none") (observed : String) :
    (verdictOn lib observed r = true ↔
      (observed ≠ "" ∧ matchCount lib r observed = 0) ∨
      (observed = "" ∧ r.IsRequired = false)) ∧
    (matchCount lib r "" = 0 →
      (verdictOn lib observed r = true ↔
        matchCount lib r observed = 0 ∧ (r.IsRequired = false ∨ observed ≠ ""))) ∧
    ((r.IsContains = true ∨ r.IsRegex = false) → matchCount lib r "" = 0) := by
  obtain ⟨hh, _, hvalid⟩ := New_ok_headers config name v hNew
  have hrv : RuleValid r := hvalid r (hh ▸ hr)
  have hvals : ∀ value ∈ r.Values, value ≠ "" :=
    fun value hv => ne_empty_of_TrimSpace_ne value (hrv.2.2.2.2 value hv)
  have hmain : verdictOn lib observed r = true ↔
      (observed ≠ "" ∧ matchCount lib r observed = 0) ∨
      (observed = "" ∧ r.IsRequired = false) := by
    unfold verdictOn
    by_cases hobs : observed = ""
    · subst hobs
      rw [if_neg (by simp), checkRequired_empty_eq r hrv.2.2.2.1 hvals]
      simp
    · rw [if_pos hobs, checkMatches_eq lib r observed hobs]
      simp [hnone, hobs]
  refine ⟨hmain, ?_, ?_⟩
  · intro hzero
    rw [hmain]
    by_cases hobs : observed = ""
    · subst hobs
      simp [hzero]
    · simp [hobs]
  · intro hstrategy
    unfold matchCount
    rw [List.length_eq_zero, List.filter_eq_nil_iff]
    intro value hv
    have hval := hvals value hv
    by_cases hc : r.IsContains = true
    · simp [valueMatches, hc, Contains_empty value hval]
    · have hc2 : r.IsContains = false := by simpa using hc
      have hx : r.IsRegex = false := by
        rcases hstrategy with h | h
        · exact absurd h hc
        · exact h
      simpa [valueMatches, hc2, hx] using fun h => hval h.symm

/-- A use of C5: with the rule of the test `MatchNoneConfig` the header value
`nl-NL` passes, the header value `de-DE` fails and an absent header fails. -/
theorem verdictOn_none_witness :
    verdictOn sampleLib "nl-NL" noneRequiredRule = true ∧
    verdictOn sampleLib "de-DE" noneRequiredRule = false ∧
    verdictOn sampleLib "" noneRequiredRule = false ∧
    (verdictOn sampleLib "nl-NL" noneRequiredRule = true ↔
      ("nl-NL" ≠ "" ∧ matchCount sampleLib noneRequiredRule "nl-NL" = 0) ∨
      ("nl-NL" = "" ∧ noneRequiredRule.IsRequired = false)) :=
  ⟨by decide, by decide, by decide,
    (verdictOn_none sampleLib (sampleConfig [noneRequiredRule] "") "validator"
      { headers := [noneRequiredRule],
        config := fillDefaults (sampleConfig [noneRequiredRule] ""), name := "validator" }
      rfl noneRequiredRule (List.mem_singleton.2 rfl) rfl "nl-NL").1⟩

/-- C5, the claim as stated fails: an optional rule with match type `none`
and the pattern `^$` is accepted by `New`; on an absent header its verdict is
true although its one configured value matches the empty header value. -/
theorem verdictOn_none_counterexample :
    New (sampleConfig [noneEmptyPatternRule] "") "validator" =
      .ok { headers := [noneEmptyPatternRule],
            config := fillDefaults (sampleConfig [noneEmptyPatternRule] ""),
            name := "validator" } ∧
    noneEmptyPatternRule.MatchType = "none" ∧
    verdictOn sampleLib "" noneEmptyPatternRule = true ∧
    matchCount sampleLib noneEmptyPatternRule "" = 1 ∧
    ¬(verdictOn sampleLib "" noneEmptyPatternRule = true ↔
      matchCount sampleLib noneEmptyPatternRule "" = 0 ∧
        (noneEmptyPatternRule.IsRequired = false ∨ ("" : String) ≠ "")) := by
  refine ⟨rfl, rfl, by decide, by decide, ?_⟩
  decide

/-- C6: for a rule accepted by `New` and an absent or empty header,
`checkRequired` is true exactly when the rule is not required, whatever the
match type and the strategy flags of the rule. -/
theorem checkRequired_absent_iff (config : Config) (name : String) (v : Validator)
    (hNew : New config name = .ok v) (r : SingleHeader) (hr : r ∈ v.headers) :
    checkRequired "" r = true ↔ r.IsRequired = false := by
  obtain ⟨hh, _, hvalid⟩ := New_ok_headers config name v hNew
  have hrv : RuleValid r := hvalid r (hh ▸ hr)
  have hvals : ∀ value ∈ r.Values, value ≠ "" :=
    fun value hv => ne_empty_of_TrimSpace_ne value (hrv.2.2.2.2 value hv)
  rw [checkRequired_empty_eq r hrv.2.2.2.1 hvals]
  simp

/-- A use of C6: the required rule of the test `MatchNoneConfig`, of match
type `none`, fails on an absent header. -/
theorem checkRequired_absent_iff_witness :
    checkRequired "" noneRequiredRule = false ∧
    (checkRequired "" noneRequiredRule = true ↔ noneRequiredRule.IsRequired = false) :=
  ⟨by decide,
    checkRequired_absent_iff (sampleConfig [noneRequiredRule] "") "validator"
      { headers := [noneRequiredRule],
        config := fillDefaults (sampleConfig [noneRequiredRule] ""), name := "validator" }
      rfl noneRequiredRule (List.mem_singleton.2 rfl)⟩

/-- C7, as amended: for a rule accepted by `New` that is not required, the
verdict on an absent header (`checkRequired` on the empty value) is true when
the match type is `none` and equally true when it is `all` or `one`: an
optional absent header passes under every match type. -/
theorem verdictOn_absent_optional (lib : Lib) (config : Config) (name : String)
    (v : Validator) (hNew : New config name = .ok v) (r : SingleHeader)
    (hr : r ∈ v.headers) (hopt : r.IsRequired = false) :
    verdictOn lib "" r = checkRequired "" r ∧
    (r.MatchType = "none" → verdictOn lib "" r = true) ∧
    (r.MatchType = "all" → verdictOn lib "" r = true) ∧
    (r.MatchType = "one" → verdictOn lib "" r = true) := by
  obtain ⟨hh, _, hvalid⟩ := New_ok_headers config name v hNew
  have hrv : RuleValid r := hvalid r (hh ▸ hr)
  have hvals : ∀ value ∈ r.Values, value ≠ "" :=
    fun value hv => ne_empty_of_TrimSpace_ne value (hrv.2.2.2.2 value hv)
  have hv : verdictOn lib "" r = checkRequired "" r := by
    unfold verdictOn
    rw [if_neg (by simp)]
  have ht : verdictOn lib "" r = true := by
    rw [hv, checkRequired_empty_eq r hrv.2.2.2.1 hvals, hopt]
    rfl
  exact ⟨hv, fun _ => ht, fun _ => ht, fun _ => ht⟩

/-- A use of C7: the optional rule of the test `MatchOneOptionalConfig`, of
match type `one`, passes on an absent header. -/
theorem verdictOn_absent_optional_witness :
    verdictOn sampleLib "" oneOptionalRule = true :=
  (verdictOn_absent_optional sampleLib (sampleConfig [oneOptionalRule] "") "validator"
    { headers := [oneOptionalRule],
      config := fillDefaults (sampleConfig [oneOptionalRule] ""), name := "validator" }
    rfl oneOptionalRule (List.mem_singleton.2 rfl) rfl).2.2.2 rfl

/-- C7, the claim as stated fails: the optional rule of the test
`MatchOneOptionalConfig` has match type `one` and is accepted by `New`, and on
an absent header `checkRequired` is true, not false. -/
theorem verdictOn_absent_optional_counterexample :
    New (sampleConfig [oneOptionalRule] "") "validator" =
      .ok { headers := [oneOptionalRule],
            config := fillDefaults (sampleConfig [oneOptionalRule] ""),
            name := "validator" } ∧
    oneOptionalRule.MatchType = "one" ∧
    oneOptionalRule.IsRequired = false ∧
    checkRequired "" oneOptionalRule = true ∧
    ¬(checkRequired "" oneOptionalRule = false) := by
  refine ⟨rfl, rfl, rfl, by decide, by decide⟩

/-! ## Evaluation of a request -/

/-- C8: for every list of rules and every request, `checkAll` is true exactly
when the verdict of every rule is true, the verdict being `checkMatches` on
the (optionally URL-decoded) header value when it is non-empty and
`checkRequired` when it is empty; the loop that stops at the first false
verdict computes the conjunction of all verdicts. -/
theorem checkAll_iff_all_verdicts (lib : Lib) (headers : List SingleHeader) (req : Request) :
    checkAll lib headers req = headers.all (verdict lib req) ∧
    (checkAll lib headers req = true ↔ ∀ r ∈ headers, verdict lib req r = true) ∧
    (∀ r, verdict lib req r =
      if observedValue lib req r ≠ "" then checkMatches lib (observedValue lib req r) r
      else checkRequired (observedValue lib req r) r) := by
  have h : checkAll lib headers req = headers.all (verdict lib req) := by
    unfold checkAll
    rw [checkAllLoop_eq]
    simp
  refine ⟨h, ?_, fun r => rfl⟩
  rw [h, List.all_eq_true]

/-- C9, as amended: `checkOne` is true exactly when some rule has a non-empty
header value that satisfies `checkMatches` and no rule after it has an empty
header value on which `checkRequired` fails; in that case the verdict of at
least one rule is true. -/
theorem checkOne_true_iff (lib : Lib) (headers : List SingleHeader) (req : Request) :
    (checkOne lib headers req = true ↔
      ∃ pre r post, headers = pre ++ r :: post ∧
        (observedValue lib req r ≠ "" ∧
          checkMatches lib (observedValue lib req r) r = true) ∧
        ∀ q ∈ post, ¬(observedValue lib req q = "" ∧
          checkRequired (observedValue lib req q) q = false)) ∧
    (checkOne lib headers req = true → ∃ r ∈ headers, verdict lib req r = true) := by
  have hmp : ∀ r, matchesPresent lib req r = true ↔
      (observedValue lib req r ≠ "" ∧
        checkMatches lib (observedValue lib req r) r = true) := by
    intro r
    simp [matchesPresent]
  have hmr : ∀ q, missingRequired lib req q = false ↔
      ¬(observedValue lib req q = "" ∧
        checkRequired (observedValue lib req q) q = false) := by
    intro q
    unfold missingRequired
    by_cases hobs : observedValue lib req q = ""
    · cases hc : checkRequired (observedValue lib req q) q <;> simp [hobs, hc]
    · have hb : (observedValue lib req q == "") = false := by simpa using hobs
      simp [hobs, hb]
  have hloop := checkOneLoop_true_iff lib req headers false
  have hiff : checkOne lib headers req = true ↔
      ∃ pre r post, headers = pre ++ r :: post ∧ matchesPresent lib req r = true ∧
        ∀ q ∈ post, missingRequired lib req q = false := by
    unfold checkOne
    rw [hloop]
    constructor
    · rintro (⟨hb, _⟩ | h)
      · exact absurd hb (by simp)
      · exact h
    · exact fun h => Or.inr h
  constructor
  · rw [hiff]
    simp only [hmp, hmr]
  · intro h
    obtain ⟨pre, r, post, hsplit, hr, _⟩ := hiff.1 h
    exact ⟨r, by simp [hsplit], matchesPresent_verdict lib req r hr⟩

/-- C9, the claim as stated fails: with the two rules of the test
`matchTopLevelOneConfig` and a request that carries `Content-Language: de-DE`
only (the test `MatchTopLevelOne_Fail`), the verdict of the first rule is true
and `checkOne` denies the request. -/
theorem checkOne_counterexample :
    verdict sampleLib (requestWith "Content-Language" "de-DE") languageRule = true ∧
    verdict sampleLib (requestWith "Content-Language" "de-DE") typeRule = false ∧
    checkOne sampleLib [languageRule, typeRule] (requestWith "Content-Language" "de-DE") =
      false ∧
    ¬(checkOne sampleLib [languageRule, typeRule] (requestWith "Content-Language" "de-DE") =
        true ↔
      ∃ r ∈ [languageRule, typeRule],
        verdict sampleLib (requestWith "Content-Language" "de-DE") r = true) := by
  have h1 : verdict sampleLib (requestWith "Content-Language" "de-DE") languageRule = true := by
    decide
  have h3 : checkOne sampleLib [languageRule, typeRule]
      (requestWith "Content-Language" "de-DE") = false := by decide
  refine ⟨h1, by decide, h3, ?_⟩
  intro h
  have := h.2 ⟨languageRule, by simp, h1⟩
  rw [h3] at this
  exact absurd this (by simp)

/-- C10, as amended: when `checkOne` is true on a rule list and the further
rule has a non-empty header value or passes `checkRequired` on its empty
header value, `checkOne` is true on the extended list; and when moreover no
rule of the list has an empty header value on which `checkRequired` fails,
`checkOne` is true on every permutation of the extended list. -/
theorem checkOne_append_true (lib : Lib) (rs : List SingleHeader) (r : SingleHeader)
    (req : Request) (h : checkOne lib rs req = true)
    (hr : observedValue lib req r ≠ "" ∨ checkRequired (observedValue lib req r) r = true) :
    checkOne lib (rs ++ [r]) req = true ∧
    ((∀ q ∈ rs, ¬(observedValue lib req q = "" ∧
        checkRequired (observedValue lib req q) q = false)) →
      ∀ rs', List.Perm rs' (rs ++ [r]) → checkOne lib rs' req = true) := by
  have hmr : missingRequired lib req r = false := by
    unfold missingRequired
    rcases hr with hobs | hc
    · have hb : (observedValue lib req r == "") = false := by simpa using hobs
      simp [hb]
    · simp [hc]
  have happ : checkOne lib (rs ++ [r]) req = true := by
    unfold checkOne at h ⊢
    rw [checkOneLoop_append, h, checkOneLoop_cons, hmr]
    simp [checkOneLoop]
  refine ⟨happ, ?_⟩
  intro hall rs' hperm
  have hall2 : ∀ q ∈ rs ++ [r], missingRequired lib req q = false := by
    intro q hq
    rcases List.mem_append.1 hq with hq | hq
    · have hnot := hall q hq
      unfold missingRequired
      by_cases hobs : observedValue lib req q = ""
      · cases hc : checkRequired (observedValue lib req q) q
        · exact absurd ⟨hobs, hc⟩ hnot
        · simp
      · have hb : (observedValue lib req q == "") = false := by simpa using hobs
        simp [hb]
    · rw [List.mem_singleton.1 hq]
      exact hmr
  have hall3 : ∀ q ∈ rs', missingRequired lib req q = false :=
    fun q hq => hall2 q (hperm.mem_iff.1 hq)
  rw [checkOne_eq_any lib req rs' hall3, List.any_eq_true]
  rw [checkOne_eq_any lib req (rs ++ [r]) hall2, List.any_eq_true] at happ
  obtain ⟨x, hx, hmp⟩ := happ
  exact ⟨x, hperm.mem_iff.2 hx, hmp⟩

/-- A use of C10: on a request that carries both headers of the test
`matchTopLevelOneConfig`, adding the second rule to the first keeps `checkOne`
true. -/
theorem checkOne_append_true_witness :
    checkOne sampleLib ([languageRule] ++ [typeRule])
      { Get := fun n => if n = "Content-Language" then "de-DE"
                        else if n = "Content-Type" then "application/xml" else "" } = true :=
  (checkOne_append_true sampleLib [languageRule] typeRule
    { Get := fun n => if n = "Content-Language" then "de-DE"
                      else if n = "Content-Type" then "application/xml" else "" }
    (by decide) (Or.inl (by decide))).1

/-- C10, the claim as stated fails: on a request that carries
`Content-Language: de-DE` only, `checkOne` is true on the first rule of the
test `matchTopLevelOneConfig` alone and false once the second rule is
appended, and it is true on the two rules in the opposite order. -/
theorem checkOne_append_counterexample :
    checkOne sampleLib [languageRule] (requestWith "Content-Language" "de-DE") = true ∧
    checkOne sampleLib ([languageRule] ++ [typeRule])
      (requestWith "Content-Language" "de-DE") = false ∧
    List.Perm [typeRule, languageRule] ([languageRule] ++ [typeRule]) ∧
    checkOne sampleLib [typeRule, languageRule]
      (requestWith "Content-Language" "de-DE") = true := by
  refine ⟨by decide, by decide, ?_, by decide⟩
  exact List.Perm.swap languageRule typeRule []

/-! ## Top-level `none` and `ServeHTTP`: lemmas -/

theorem checkNoneLoop_cons (lib : Lib) (req : Request) (r : SingleHeader)
    (rest : List SingleHeader) (isValid : Bool) :
    checkNoneLoop lib req (r :: rest) isValid =
      if (!isValid) = true then false
      else if observedValue lib req r ≠ "" then
        if (!checkRequired (observedValue lib req r) r) = true then
          checkNoneLoop lib req rest false
        else checkNoneLoop lib req rest isValid
      else
        if (!checkRequired (observedValue lib req r) r) = true then
          checkNoneLoop lib req rest true
        else checkNoneLoop lib req rest isValid := rfl

theorem checkNoneLoop_eq (lib : Lib) (req : Request) (headers : List SingleHeader)
    (isValid : Bool) :
    checkNoneLoop lib req headers isValid = (isValid && headers.all (passesNone lib req)) := by
  induction headers generalizing isValid with
  | nil => simp [checkNoneLoop]
  | cons r rest ih =>
    cases isValid with
    | false => simp [checkNoneLoop]
    | true =>
      rw [checkNoneLoop_cons, List.all_cons]
      simp only [ih]
      unfold passesNone
      generalize observedValue lib req r = o
      by_cases hobs : o = ""
      · cases hc : checkRequired o r <;> simp [hobs, hc]
      · have hb : (o == "") = false := by simpa using hobs
        cases hc : checkRequired o r <;> simp [hobs, hc, hb]

theorem checkNone_eq_all (lib : Lib) (headers : List SingleHeader) (req : Request) :
    checkNone lib headers req = headers.all (passesNone lib req) := by
  unfold checkNone
  rw [checkNoneLoop_eq]
  simp

theorem checkAll_eq_all (lib : Lib) (headers : List SingleHeader) (req : Request) :
    checkAll lib headers req = headers.all (verdict lib req) := by
  unfold checkAll
  rw [checkAllLoop_eq]
  simp

theorem checkOne_single (lib : Lib) (r : SingleHeader) (req : Request) :
    checkOne lib [r] req = matchesPresent lib req r := by
  unfold checkOne
  rw [checkOneLoop_cons]
  simp [checkOneLoop]

theorem headersValid_other (lib : Lib) (a : Validator) (req : Request)
    (hall : a.config.MatchType ≠ "all") (hone : a.config.MatchType ≠ "one")
    (hnone : a.config.MatchType ≠ "none") :
    a.headersValid lib req = checkAll lib a.headers req := by
  unfold Validator.headersValid
  rw [if_neg (by simpa [MatchNone] using hnone), if_neg (by simpa [MatchAll] using hall),
    if_neg (by simpa [MatchOne] using hone)]

/-! ## Top-level `none` and the fallback of `ServeHTTP` -/

/-- C11, as amended: for every rule list and request, `checkNone` is true
exactly when every rule whose (optionally URL-decoded) header value is
non-empty passes `checkRequired` on that value; rules whose header value is
empty are not counted. -/
theorem checkNone_true_iff (lib : Lib) (headers : List SingleHeader) (req : Request) :
    checkNone lib headers req = true ↔
      ∀ r ∈ headers, observedValue lib req r ≠ "" →
        checkRequired (observedValue lib req r) r = true := by
  rw [checkNone_eq_all, List.all_eq_true]
  constructor
  · intro h r hr hobs
    have := h r hr
    unfold passesNone at this
    have hb : (observedValue lib req r == "") = false := by simpa using hobs
    simpa [hb] using this
  · intro h r hr
    unfold passesNone
    by_cases hobs : observedValue lib req r = ""
    · simp [hobs]
    · simp [h r hr hobs]

/-- C11, the claim as stated fails: with the two rules of the test
`matchTopLevelNoneConfig` and the request of the test
`matchTopLevelNone_Success`, which carries `Content-Language: nl-NL`, the
verdict of the first rule is true, so the number of rules with a true verdict
is not zero, and `checkNone` admits the request. -/
theorem checkNone_counterexample :
    verdict sampleLib (requestWith "Content-Language" "nl-NL") noneRequiredRule = true ∧
    ([noneRequiredRule, typeNoneRule].filter
      (verdict sampleLib (requestWith "Content-Language" "nl-NL"))).length = 1 ∧
    checkNone sampleLib [noneRequiredRule, typeNoneRule]
      (requestWith "Content-Language" "nl-NL") = true ∧
    ¬(checkNone sampleLib [noneRequiredRule, typeNoneRule]
        (requestWith "Content-Language" "nl-NL") = true ↔
      ([noneRequiredRule, typeNoneRule].filter
        (verdict sampleLib (requestWith "Content-Language" "nl-NL"))).length = 0) := by
  refine ⟨by decide, by decide, by decide, by decide⟩

/-- C12: for every top-level match type other than `all`, `one` and `none`
(the empty string and other spellings included), `ServeHTTP` decides as
`checkAll` does on the same rules and request: it passes the request on when
`checkAll` is true and writes the configured error otherwise. -/
theorem ServeHTTP_fallback_checkAll (lib : Lib) (a : Validator) (req : Request)
    (hall : a.config.MatchType ≠ "all") (hone : a.config.MatchType ≠ "one")
    (hnone : a.config.MatchType ≠ "none") :
    a.headersValid lib req = checkAll lib a.headers req ∧
    a.ServeHTTP lib req =
      if checkAll lib a.headers req = true then Outcome.next
      else Outcome.error a.config.Error.Message a.config.Error.StatusCode := by
  have h := headersValid_other lib a req hall hone hnone
  refine ⟨h, ?_⟩
  unfold Validator.ServeHTTP
  simp only [h]

/-- A use of C12: with the top-level match type `ALL`, which is none of the
three known spellings, the two rules of the test `matchTopLevelAllConfig` and
a request that carries only the first header, the request is denied as
`checkAll` decides. -/
theorem ServeHTTP_fallback_checkAll_witness :
    Validator.ServeHTTP sampleLib
      { headers := [languageRule, typeRule],
        config := fillDefaults (sampleConfig [languageRule, typeRule] "ALL"),
        name := "validator" }
      (requestWith "Content-Language" "de-DE") =
      if checkAll sampleLib [languageRule, typeRule]
          (requestWith "Content-Language" "de-DE") = true then Outcome.next
      else Outcome.error "Not allowed" 403 :=
  (ServeHTTP_fallback_checkAll sampleLib
    { headers := [languageRule, typeRule],
      config := fillDefaults (sampleConfig [languageRule, typeRule] "ALL"),
      name := "validator" }
    (requestWith "Content-Language" "de-DE") (by decide) (by decide) (by decide)).2

/-! ## URL decoding and pattern errors: lemmas -/

theorem checkAll_single (lib : Lib) (r : SingleHeader) (req : Request) :
    checkAll lib [r] req = verdictOn lib (observedValue lib req r) r := by
  rw [checkAll_eq_all]
  simp [verdict]

theorem checkNone_single (lib : Lib) (r : SingleHeader) (req : Request) :
    checkNone lib [r] req = passesNone lib req r := by
  rw [checkNone_eq_all]
  simp

theorem checkMatches_withoutURLDecode (lib : Lib) (observed : String) (r : SingleHeader) :
    checkMatches lib observed (withoutURLDecode r) = checkMatches lib observed r := rfl

theorem checkRequired_withoutURLDecode (observed : String) (r : SingleHeader) :
    checkRequired observed (withoutURLDecode r) = checkRequired observed r := rfl

theorem observedValue_withoutURLDecode (lib : Lib) (req : Request) (r : SingleHeader) :
    observedValue lib req (withoutURLDecode r) = req.Get r.Name := rfl

theorem observedValue_decoded (lib : Lib) (req : Request) (r : SingleHeader)
    (h : r.IsURLDecode = true) :
    observedValue lib req r = (lib.QueryUnescape (req.Get r.Name)).1 := by
  unfold observedValue
  rw [if_pos h]

/-- A single rule has the same outcome under the three top-level combinators
as the rule without URL decoding on a request that carries the value the rule
is evaluated on. -/
theorem single_rule_decoded (lib : Lib) (r : SingleHeader) (req req' : Request)
    (h : req'.Get r.Name = observedValue lib req r) :
    checkAll lib [r] req = checkAll lib [withoutURLDecode r] req' ∧
    checkOne lib [r] req = checkOne lib [withoutURLDecode r] req' ∧
    checkNone lib [r] req = checkNone lib [withoutURLDecode r] req' := by
  refine ⟨?_, ?_, ?_⟩
  · rw [checkAll_single, checkAll_single, observedValue_withoutURLDecode, h]
    unfold verdictOn
    rw [checkMatches_withoutURLDecode, checkRequired_withoutURLDecode]
  · rw [checkOne_single, checkOne_single]
    unfold matchesPresent
    rw [observedValue_withoutURLDecode, h, checkMatches_withoutURLDecode]
  · rw [checkNone_single, checkNone_single]
    unfold passesNone
    rw [observedValue_withoutURLDecode, h, checkRequired_withoutURLDecode]

theorem QueryUnescape_error_empty (s : String) (h : (QueryUnescape s).2 ≠ none) :
    (QueryUnescape s).1 = "" := by
  unfold QueryUnescape at h ⊢
  cases hu : unescapeChars s.data with
  | none => rfl
  | some t => simp [hu] at h

theorem regexCount_all_errors (lib : Lib) (requestValue : String) (debug : Bool)
    (values : List String)
    (h : ∀ p ∈ values, (lib.MatchString p requestValue).2 ≠ none) :
    regexCount lib requestValue debug values 0 = 0 := by
  rw [regexCount_eq, Nat.zero_add, List.length_eq_zero, List.filter_eq_nil_iff]
  intro p hp
  have := h p hp
  cases he : (lib.MatchString p requestValue).2 with
  | none => exact absurd he this
  | some e => simp [he]

theorem checkRegex_eq (lib : Lib) (requestValue : String) (r : SingleHeader) :
    checkRegex lib requestValue r =
      if r.MatchType = "none" then
        decide ((r.Values.filter (fun p =>
          (lib.MatchString p requestValue).1 &&
            (lib.MatchString p requestValue).2.isNone)).length = 0)
      else if r.MatchType = "all" then
        decide ((r.Values.filter (fun p =>
            (lib.MatchString p requestValue).1 &&
              (lib.MatchString p requestValue).2.isNone)).length ≠ 0 ∧
          (r.Values.filter (fun p =>
            (lib.MatchString p requestValue).1 &&
              (lib.MatchString p requestValue).2.isNone)).length = r.Values.length)
      else
        decide (0 < (r.Values.filter (fun p =>
          (lib.MatchString p requestValue).1 &&
            (lib.MatchString p requestValue).2.isNone)).length) := by
  unfold checkRegex
  rw [regexCount_eq, Nat.zero_add]
  generalize (r.Values.filter (fun p =>
    (lib.MatchString p requestValue).1 &&
      (lib.MatchString p requestValue).2.isNone)).length = n
  by_cases hn : r.MatchType = "none"
  · simp [MatchNone, hn, beq_zero_eq_decide]
  · by_cases ha : r.MatchType = "all"
    · simp [MatchNone, MatchAll, hn, ha]
    · simp [MatchNone, MatchAll, hn, ha, Nat.pos_iff_ne_zero]

/-! ## URL decoding and pattern errors -/

/-- C13, as amended: when a rule has `urldecode` set and the decoding of the
header value fails, the rule is evaluated on the string `url.QueryUnescape`
returns with the error, which is the empty string: its outcome under
`checkAll`, `checkOne` and `checkNone` is that of the same rule with
`urldecode` unset on a request without the header. -/
theorem urlDecode_failure_absent (lib : Lib) (r : SingleHeader) (req req' : Request)
    (hlib : lib.QueryUnescape = QueryUnescape) (hflag : r.IsURLDecode = true)
    (hfail : (lib.QueryUnescape (req.Get r.Name)).2 ≠ none)
    (habsent : req'.Get r.Name = "") :
    observedValue lib req r = "" ∧
    checkAll lib [r] req = checkAll lib [withoutURLDecode r] req' ∧
    checkOne lib [r] req = checkOne lib [withoutURLDecode r] req' ∧
    checkNone lib [r] req = checkNone lib [withoutURLDecode r] req' := by
  have hobs : observedValue lib req r = "" := by
    rw [observedValue_decoded lib req r hflag]
    rw [hlib] at hfail ⊢
    exact QueryUnescape_error_empty _ hfail
  exact ⟨hobs, single_rule_decoded lib r req req' (by rw [habsent, hobs])⟩

/-- A use of C13: the header value `%` is a malformed escape; a required rule
with `urldecode` that would accept the raw value `%` is evaluated as on a
request without the header, and fails. -/
theorem urlDecode_failure_absent_witness :
    checkAll goLib [percentRule] (requestWith "X-Token" "%") =
      checkAll goLib [withoutURLDecode percentRule] emptyRequest ∧
    checkAll goLib [withoutURLDecode percentRule] emptyRequest = false :=
  ⟨(urlDecode_failure_absent goLib percentRule (requestWith "X-Token" "%") emptyRequest
      rfl rfl (by decide) rfl).2.1, by decide⟩

/-- C13, the claim as stated fails: on the header value `%`, whose decoding
fails, the required rule with `urldecode` set is denied under `checkAll` and
`checkOne`, while the same rule with `urldecode` unset accepts the raw value
`%` on the same request. -/
theorem urlDecode_failure_counterexample :
    (goLib.QueryUnescape "%").2 ≠ none ∧
    checkAll goLib [percentRule] (requestWith "X-Token" "%") = false ∧
    checkAll goLib [withoutURLDecode percentRule] (requestWith "X-Token" "%") = true ∧
    checkOne goLib [percentRule] (requestWith "X-Token" "%") = false ∧
    checkOne goLib [withoutURLDecode percentRule] (requestWith "X-Token" "%") = true := by
  refine ⟨by decide, by decide, by decide, by decide, by decide⟩

/-- C14: `checkRegex` is a total function whose result is the combinator of
the match type applied to the number of patterns that compile and match, a
pattern with an error counting as no match; a rule of match type `one` all of
whose patterns have an error is false on the header value. -/
theorem checkRegex_error_no_match (lib : Lib) (requestValue : String) (r : SingleHeader) :
    (checkRegex lib requestValue r =
      if r.MatchType = "none" then
        decide ((r.Values.filter (fun p =>
          (lib.MatchString p requestValue).1 &&
            (lib.MatchString p requestValue).2.isNone)).length = 0)
      else if r.MatchType = "all" then
        decide (0 < r.Values.length ∧ ∀ p ∈ r.Values,
          (lib.MatchString p requestValue).1 = true ∧
            (lib.MatchString p requestValue).2 = none)
      else
        decide (∃ p ∈ r.Values,
          (lib.MatchString p requestValue).1 = true ∧
            (lib.MatchString p requestValue).2 = none)) ∧
    ((∀ p ∈ r.Values, (lib.MatchString p requestValue).2 ≠ none) → r.MatchType = "one" →
      checkRegex lib requestValue r = false) := by
  constructor
  · have hlen := filter_length_eq_length_iff (fun p =>
      (lib.MatchString p requestValue).1 &&
        (lib.MatchString p requestValue).2.isNone) r.Values
    have hpos := filter_length_pos_iff (fun p =>
      (lib.MatchString p requestValue).1 &&
        (lib.MatchString p requestValue).2.isNone) r.Values
    simp only [Bool.and_eq_true, Option.isNone_iff_eq_none] at hlen hpos
    rw [checkRegex_eq]
    by_cases hn : r.MatchType = "none"
    · rw [if_pos hn, if_pos hn]
    · rw [if_neg hn, if_neg hn]
      by_cases ha : r.MatchType = "all"
      · rw [if_pos ha, if_pos ha]
        apply decide_eq_decide.2
        constructor
        · rintro ⟨h1, h2⟩
          exact ⟨by omega, hlen.1 h2⟩
        · rintro ⟨h1, h2⟩
          have h3 := hlen.2 h2
          exact ⟨by omega, h3⟩
      · rw [if_neg ha, if_neg ha]
        exact decide_eq_decide.2 hpos
  · intro herr hone
    unfold checkRegex
    rw [regexCount_all_errors lib requestValue _ r.Values herr]
    simp [MatchNone, hone]

/-- A use of C14: the rule of the test `InvalidRegex`, of match type `one`
with the single pattern `[`, is false on the header value `de-DE`. -/
theorem checkRegex_error_no_match_witness :
    checkRegex goLib "de-DE" invalidRegexRule = false :=
  (checkRegex_error_no_match goLib "de-DE" invalidRegexRule).2
    (by
      intro p hp
      rw [List.mem_singleton.1 hp]
      decide)
    rfl

/-- C18: when a rule has `urldecode` set and the decoding of the header value
succeeds, the rule is matched against the decoded value: its outcome under
`checkAll`, `checkOne` and `checkNone` is that of the same rule with
`urldecode` unset on a request whose header holds the decoded string. -/
theorem urlDecode_success_decoded (lib : Lib) (r : SingleHeader) (req req' : Request)
    (decoded : String) (hflag : r.IsURLDecode = true)
    (hdec : lib.QueryUnescape (req.Get r.Name) = (decoded, none))
    (hreq : req'.Get r.Name = decoded) :
    observedValue lib req r = decoded ∧
    checkAll lib [r] req = checkAll lib [withoutURLDecode r] req' ∧
    checkOne lib [r] req = checkOne lib [withoutURLDecode r] req' ∧
    checkNone lib [r] req = checkNone lib [withoutURLDecode r] req' := by
  have hobs : observedValue lib req r = decoded := by
    rw [observedValue_decoded lib req r hflag, hdec]
  exact ⟨hobs, single_rule_decoded lib r req req' (by rw [hreq, hobs])⟩

/-- A use of C18: the configured value `SAN="x"` is contained in the header
value `CN=common-name&SAN=%22x%22` once it is decoded. -/
theorem urlDecode_success_decoded_witness :
    checkAll goLib [certRule]
      (requestWith "X-Forwarded-Tls-Client-Cert-Info" "CN=common-name&SAN=%22x%22") =
      checkAll goLib [withoutURLDecode certRule]
        (requestWith "X-Forwarded-Tls-Client-Cert-Info" "CN=common-name&SAN=\"x\"") ∧
    checkAll goLib [withoutURLDecode certRule]
      (requestWith "X-Forwarded-Tls-Client-Cert-Info" "CN=common-name&SAN=\"x\"") = true :=
  ⟨(urlDecode_success_decoded goLib certRule
      (requestWith "X-Forwarded-Tls-Client-Cert-Info" "CN=common-name&SAN=%22x%22")
      (requestWith "X-Forwarded-Tls-Client-Cert-Info" "CN=common-name&SAN=\"x\"")
      "CN=common-name&SAN=\"x\"" rfl (by decide) rfl).2.1, by decide⟩

/-! ## The denial response and the debug flag: lemmas -/

theorem fillDefaults_MatchType (config : Config) :
    (fillDefaults config).MatchType = config.MatchType := by
  unfold fillDefaults
  by_cases h1 : config.Error.StatusCode = 0 <;> by_cases h2 : config.Error.Message = "" <;>
    simp [h1, h2]

theorem fillDefaults_StatusCode (config : Config) :
    (fillDefaults config).Error.StatusCode =
      if config.Error.StatusCode = 0 then 403 else config.Error.StatusCode := by
  unfold fillDefaults
  by_cases h1 : config.Error.StatusCode = 0 <;> by_cases h2 : config.Error.Message = "" <;>
    simp [h1, h2, StatusForbidden]

theorem fillDefaults_Message (config : Config) :
    (fillDefaults config).Error.Message =
      if config.Error.Message = "" then "Not allowed" else config.Error.Message := by
  unfold fillDefaults
  by_cases h1 : config.Error.StatusCode = 0 <;> by_cases h2 : config.Error.Message = "" <;>
    simp [h1, h2]

theorem New_ok_config (config : Config) (name : String) (v : Validator)
    (h : New config name = .ok v) :
    v = { headers := config.Headers, config := fillDefaults config, name := name } := by
  by_cases hne : config.Headers = []
  · simp [New, hne] at h
  · rw [New_eq_of_nonempty config name hne] at h
    cases hc : checkHeaders config.Headers with
    | error e => simp [hc] at h
    | ok u =>
      simp [hc] at h
      exact h.symm

theorem checkRegex_all_errors (lib : Lib) (requestValue : String) (r : SingleHeader)
    (h : ∀ p ∈ r.Values, (lib.MatchString p requestValue).2 ≠ none) :
    checkRegex lib requestValue r = decide (r.MatchType = "none") := by
  unfold checkRegex
  rw [regexCount_all_errors lib requestValue _ r.Values h]
  by_cases hn : r.MatchType = "none"
  · simp [MatchNone, hn]
  · simp [MatchNone, hn]

theorem ServeHTTP_eq (lib : Lib) (a : Validator) (req : Request) :
    a.ServeHTTP lib req =
      if a.headersValid lib req = true then Outcome.next
      else Outcome.error a.config.Error.Message a.config.Error.StatusCode := rfl

theorem checkContains_withDebug (debug : Option Bool) (requestValue : String)
    (r : SingleHeader) :
    checkContains requestValue (withDebug debug r) = checkContains requestValue r := rfl

theorem checkRequired_withDebug (debug : Option Bool) (requestValue : String)
    (r : SingleHeader) :
    checkRequired requestValue (withDebug debug r) = checkRequired requestValue r := rfl

theorem checkRegex_withDebug (lib : Lib) (debug : Option Bool) (requestValue : String)
    (r : SingleHeader) :
    checkRegex lib requestValue (withDebug debug r) = checkRegex lib requestValue r := by
  rw [checkRegex_eq, checkRegex_eq]
  rfl

theorem checkMatches_withDebug (lib : Lib) (debug : Option Bool) (requestValue : String)
    (r : SingleHeader) :
    checkMatches lib requestValue (withDebug debug r) = checkMatches lib requestValue r := by
  show (if r.IsContains = true then checkContains requestValue (withDebug debug r)
    else if r.IsRegex = true then checkRegex lib requestValue (withDebug debug r)
    else checkRequired requestValue (withDebug debug r)) = checkMatches lib requestValue r
  rw [checkContains_withDebug, checkRegex_withDebug, checkRequired_withDebug]
  rfl

theorem observedValue_withDebug (lib : Lib) (debug : Option Bool) (req : Request)
    (r : SingleHeader) :
    observedValue lib req (withDebug debug r) = observedValue lib req r := rfl

theorem verdict_withDebug (lib : Lib) (debug : Option Bool) (req : Request)
    (r : SingleHeader) :
    verdict lib req (withDebug debug r) = verdict lib req r := by
  unfold verdict verdictOn
  rw [observedValue_withDebug, checkMatches_withDebug, checkRequired_withDebug]

theorem matchesPresent_withDebug (lib : Lib) (debug : Option Bool) (req : Request)
    (r : SingleHeader) :
    matchesPresent lib req (withDebug debug r) = matchesPresent lib req r := by
  unfold matchesPresent
  rw [observedValue_withDebug, checkMatches_withDebug]

theorem missingRequired_withDebug (lib : Lib) (debug : Option Bool) (req : Request)
    (r : SingleHeader) :
    missingRequired lib req (withDebug debug r) = missingRequired lib req r := by
  unfold missingRequired
  rw [observedValue_withDebug, checkRequired_withDebug]

theorem passesNone_withDebug (lib : Lib) (debug : Option Bool) (req : Request)
    (r : SingleHeader) :
    passesNone lib req (withDebug debug r) = passesNone lib req r := by
  unfold passesNone
  rw [observedValue_withDebug, checkRequired_withDebug]

theorem checkOneLoop_withDebug (lib : Lib) (flags : SingleHeader → Option Bool)
    (req : Request) (headers : List SingleHeader) (isValid : Bool) :
    checkOneLoop lib req (headers.map (fun r => withDebug (flags r) r)) isValid =
      checkOneLoop lib req headers isValid := by
  induction headers generalizing isValid with
  | nil => rfl
  | cons r rest ih =>
    rw [List.map_cons, checkOneLoop_cons, checkOneLoop_cons, ih,
      missingRequired_withDebug, matchesPresent_withDebug]

/-! ## The denial response and the debug flag -/

/-- C15, as amended: for a policy accepted by `New` that consists of a single
regex rule (without `contains`) all of whose patterns fail to compile, and a
top-level match type other than `none`: a request whose header value is
non-empty is denied when the match type of the rule is not `none` and is
admitted when it is `none`; a request whose header value is empty is denied
when the rule is required. -/
theorem ServeHTTP_pattern_errors (lib : Lib) (config : Config) (name : String)
    (v : Validator) (r : SingleHeader) (req : Request)
    (hNew : New config name = .ok v) (hsingle : config.Headers = [r])
    (hregex : r.IsRegex = true) (hcontains : r.IsContains = false)
    (herr : ∀ p ∈ r.Values, ∀ s, (lib.MatchString p s).2 ≠ none)
    (htop : config.MatchType ≠ "none") :
    (observedValue lib req r ≠ "" → r.MatchType ≠ "none" →
      v.ServeHTTP lib req = .error v.config.Error.Message v.config.Error.StatusCode) ∧
    (observedValue lib req r ≠ "" → r.MatchType = "none" → v.ServeHTTP lib req = .next) ∧
    (observedValue lib req r = "" → r.IsRequired = true →
      v.ServeHTTP lib req = .error v.config.Error.Message v.config.Error.StatusCode) := by
  obtain ⟨_, _, hvalid⟩ := New_ok_headers config name v hNew
  have hrv : RuleValid r := hvalid r (by simp [hsingle])
  have hvals : ∀ value ∈ r.Values, value ≠ "" :=
    fun value hv => ne_empty_of_TrimSpace_ne value (hrv.2.2.2.2 value hv)
  have hv := New_ok_config config name v hNew
  have hhv : v.headersValid lib req =
      if config.MatchType = "one" then matchesPresent lib req r
      else verdictOn lib (observedValue lib req r) r := by
    rw [hv]
    unfold Validator.headersValid
    simp only [fillDefaults_MatchType, hsingle]
    rw [if_neg (by simpa [MatchNone] using htop), checkAll_single, checkOne_single]
    by_cases hone : config.MatchType = "one"
    · simp [hone, MatchAll, MatchOne]
    · simp [hone, MatchOne]
  have hcm : ∀ o, checkMatches lib o r = decide (r.MatchType = "none") := by
    intro o
    unfold checkMatches
    rw [if_neg (by simp [hcontains]), if_pos hregex]
    exact checkRegex_all_errors lib o r (fun p hp => herr p hp o)
  refine ⟨?_, ?_, ?_⟩
  · intro hobs hmt
    have hb : (observedValue lib req r != "") = true := by simpa using hobs
    rw [ServeHTTP_eq, hhv]
    simp [matchesPresent, verdictOn, hobs, hcm, hmt]
  · intro hobs hmt
    have hb : (observedValue lib req r != "") = true := by simpa using hobs
    rw [ServeHTTP_eq, hhv]
    simp [matchesPresent, verdictOn, hobs, hcm, hmt]
  · intro hobs hreq
    rw [ServeHTTP_eq, hhv]
    simp [matchesPresent, verdictOn, hobs, checkRequired_empty_eq r hrv.2.2.2.1 hvals, hreq]

/-- A use of C15: the policy of the test `InvalidRegex`, a single rule of
match type `one` with the pattern `[`, denies the request of that test with
the default response. -/
theorem ServeHTTP_pattern_errors_witness :
    Validator.ServeHTTP goLib
      { headers := [invalidRegexRule],
        config := fillDefaults (sampleConfig [invalidRegexRule] ""), name := "validator" }
      (requestWith "Content-Language" "de-DE") = .error "Not allowed" 403 :=
  (ServeHTTP_pattern_errors goLib (sampleConfig [invalidRegexRule] "") "validator"
    { headers := [invalidRegexRule],
      config := fillDefaults (sampleConfig [invalidRegexRule] ""), name := "validator" }
    invalidRegexRule (requestWith "Content-Language" "de-DE") rfl rfl rfl rfl
    (by
      intro p hp s
      rw [List.mem_singleton.1 hp]
      simp [goLib])
    (by decide)).1 (by decide) (by decide)

/-- C15, the claim as stated fails: the policy that consists of the single
regex rule of match type `none` with the pattern `[`, which does not compile,
is accepted by `New` and admits the request with `Content-Language: de-DE`. -/
theorem ServeHTTP_pattern_errors_counterexample :
    New (sampleConfig [invalidRegexNoneRule] "") "validator" =
      .ok { headers := [invalidRegexNoneRule],
            config := fillDefaults (sampleConfig [invalidRegexNoneRule] ""),
            name := "validator" } ∧
    invalidRegexNoneRule.IsRegex = true ∧
    (goLib.MatchString "[" "de-DE").2 ≠ none ∧
    Validator.ServeHTTP goLib
      { headers := [invalidRegexNoneRule],
        config := fillDefaults (sampleConfig [invalidRegexNoneRule] ""), name := "validator" }
      (requestWith "Content-Language" "de-DE") = .next := by
  refine ⟨rfl, rfl, by decide, by decide⟩

/-- C16: after a successful `New` the status code of the denial is the
configured one when it is not zero and 403 otherwise, the message is the
configured one when it is not empty and `Not allowed` otherwise, and the
header rules and the top-level match type are the configured ones. -/
theorem New_fills_defaults (config : Config) (name : String) (v : Validator)
    (hNew : New config name = .ok v) :
    v.config.Error.StatusCode =
      (if config.Error.StatusCode = 0 then 403 else config.Error.StatusCode) ∧
    v.config.Error.Message =
      (if config.Error.Message = "" then "Not allowed" else config.Error.Message) ∧
    v.config.Headers = config.Headers ∧ v.config.MatchType = config.MatchType ∧
    v.headers = config.Headers := by
  rw [New_ok_config config name v hNew]
  exact ⟨fillDefaults_StatusCode config, fillDefaults_Message config,
    fillDefaults_Headers config, fillDefaults_MatchType config, rfl⟩

/-- A use of C16: a configured response `404`, `Not Found` is kept by `New`. -/
theorem New_fills_defaults_witness :
    (fillDefaults notFoundConfig).Error.StatusCode = 404 ∧
    (fillDefaults notFoundConfig).Error.Message = "Not Found" :=
  ⟨(New_fills_defaults notFoundConfig "validator"
      { headers := [languageRule], config := fillDefaults notFoundConfig, name := "validator" }
      rfl).1,
   (New_fills_defaults notFoundConfig "validator"
      { headers := [languageRule], config := fillDefaults notFoundConfig, name := "validator" }
      rfl).2.1⟩

/-- C17: for every Validator built by `New` and every request, `ServeHTTP`
passes the request to the next handler when the header check is true, and
otherwise writes the error with the configured message and status code, which
are `Not allowed` and 403 when none was configured; one of the two happens
and never both. -/
theorem ServeHTTP_outcome (lib : Lib) (config : Config) (name : String) (v : Validator)
    (req : Request) (hNew : New config name = .ok v) :
    (v.headersValid lib req = true → v.ServeHTTP lib req = .next) ∧
    (v.headersValid lib req = false →
      v.ServeHTTP lib req =
        .error (if config.Error.Message = "" then "Not allowed" else config.Error.Message)
          (if config.Error.StatusCode = 0 then 403 else config.Error.StatusCode)) ∧
    (v.ServeHTTP lib req = .next ∨
      v.ServeHTTP lib req =
        .error (if config.Error.Message = "" then "Not allowed" else config.Error.Message)
          (if config.Error.StatusCode = 0 then 403 else config.Error.StatusCode)) ∧
    Outcome.next ≠
      Outcome.error (if config.Error.Message = "" then "Not allowed" else config.Error.Message)
        (if config.Error.StatusCode = 0 then 403 else config.Error.StatusCode) := by
  have hv := New_ok_config config name v hNew
  have hm : v.config.Error.Message =
      (if config.Error.Message = "" then "Not allowed" else config.Error.Message) := by
    rw [hv]
    exact fillDefaults_Message config
  have hc : v.config.Error.StatusCode =
      (if config.Error.StatusCode = 0 then 403 else config.Error.StatusCode) := by
    rw [hv]
    exact fillDefaults_StatusCode config
  have h1 : v.headersValid lib req = true → v.ServeHTTP lib req = .next := by
    intro h
    rw [ServeHTTP_eq, if_pos h]
  have h2 : v.headersValid lib req = false →
      v.ServeHTTP lib req =
        .error (if config.Error.Message = "" then "Not allowed" else config.Error.Message)
          (if config.Error.StatusCode = 0 then 403 else config.Error.StatusCode) := by
    intro h
    rw [ServeHTTP_eq, if_neg (by simp [h]), hm, hc]
  refine ⟨h1, h2, ?_, by simp⟩
  cases h : v.headersValid lib req
  · exact Or.inr (h2 h)
  · exact Or.inl (h1 h)

/-- A use of C17: with the configured response `404`, `Not Found` a request
with `Content-Language: fr-FR`, which the rule does not accept, is denied with
exactly that response. -/
theorem ServeHTTP_outcome_witness :
    Validator.ServeHTTP sampleLib
      { headers := [languageRule], config := fillDefaults notFoundConfig, name := "validator" }
      (requestWith "Content-Language" "fr-FR") = .error "Not Found" 404 :=
  (ServeHTTP_outcome sampleLib notFoundConfig "validator"
    { headers := [languageRule], config := fillDefaults notFoundConfig, name := "validator" }
    (requestWith "Content-Language" "fr-FR") rfl).2.1 (by decide)

/-- C19: `CreateConfig` is the default configuration, without header rules,
with top-level match type `all`, status code 403 and message `Not allowed`,
and `New` rejects it with the missing-headers error. -/
theorem CreateConfig_default (name : String) :
    CreateConfig =
      { Headers := [], MatchType := "all",
        Error := { StatusCode := 403, Message := "Not allowed" } } ∧
    New CreateConfig name =
      .error "validate-headers: configuration incorrect, missing headers" :=
  ⟨rfl, rfl⟩

/-- C20: the debug flag of a rule never alters a result: `checkContains`,
`checkRegex`, `checkRequired` and `checkMatches` give the same boolean on a
rule whatever its debug flag is replaced by, and `checkAll`, `checkOne` and
`checkNone` give the same boolean when the debug flags of the rules are
replaced. -/
theorem debug_flag_irrelevant (lib : Lib) (debug : Option Bool)
    (flags : SingleHeader → Option Bool) (requestValue : String) (r : SingleHeader)
    (headers : List SingleHeader) (req : Request) :
    checkContains requestValue (withDebug debug r) = checkContains requestValue r ∧
    checkRegex lib requestValue (withDebug debug r) = checkRegex lib requestValue r ∧
    checkRequired requestValue (withDebug debug r) = checkRequired requestValue r ∧
    checkMatches lib requestValue (withDebug debug r) = checkMatches lib requestValue r ∧
    checkAll lib (headers.map (fun h => withDebug (flags h) h)) req =
      checkAll lib headers req ∧
    checkOne lib (headers.map (fun h => withDebug (flags h) h)) req =
      checkOne lib headers req ∧
    checkNone lib (headers.map (fun h => withDebug (flags h) h)) req =
      checkNone lib headers req := by
  refine ⟨checkContains_withDebug debug requestValue r,
    checkRegex_withDebug lib debug requestValue r,
    checkRequired_withDebug debug requestValue r,
    checkMatches_withDebug lib debug requestValue r, ?_, ?_, ?_⟩
  · have hf : (verdict lib req ∘ fun h => withDebug (flags h) h) = verdict lib req := by
      funext h
      exact verdict_withDebug lib (flags h) req h
    rw [checkAll_eq_all, checkAll_eq_all, List.all_map, hf]
  · exact checkOneLoop_withDebug lib flags req headers false
  · have hf : (passesNone lib req ∘ fun h => withDebug (flags h) h) = passesNone lib req := by
      funext h
      exact passesNone_withDebug lib (flags h) req h
    rw [checkNone_eq_all, checkNone_eq_all, List.all_map, hf]

/-! ## Flags, strategies and match types of a rule: lemmas -/

theorem requiredCount_required_irrelevant (requestValue : String) (b1 b2 : Bool)
    (values : List String) (h : requestValue ≠ "") :
    requiredCount requestValue b1 values 0 = requiredCount requestValue b2 values 0 := by
  rw [requiredCount_nonempty _ _ _ h, requiredCount_nonempty _ _ _ h]

theorem checkRequired_nonempty (requestValue : String) (r : SingleHeader)
    (h : requestValue ≠ "") :
    checkRequired requestValue r =
      if r.MatchType = MatchNone then
        (r.Values.filter (fun value => requestValue == value)).length == 0
      else decide ((r.Values.filter (fun value => requestValue == value)).length > 0) := by
  unfold checkRequired
  rw [requiredCount_nonempty _ _ _ h]
  simp only [if_neg h]

theorem checkRequired_withRequired (required : Option Bool) (requestValue : String)
    (r : SingleHeader) (h : requestValue ≠ "") :
    checkRequired requestValue (withRequired required r) = checkRequired requestValue r := by
  rw [checkRequired_nonempty _ _ h, checkRequired_nonempty _ _ h]
  rfl

theorem checkContains_withRequired (required : Option Bool) (requestValue : String)
    (r : SingleHeader) :
    checkContains requestValue (withRequired required r) = checkContains requestValue r := rfl

theorem checkRegex_withRequired (lib : Lib) (required : Option Bool) (requestValue : String)
    (r : SingleHeader) :
    checkRegex lib requestValue (withRequired required r) = checkRegex lib requestValue r := rfl

theorem checkMatches_withRequired (lib : Lib) (required : Option Bool)
    (requestValue : String) (r : SingleHeader) (h : requestValue ≠ "") :
    checkMatches lib requestValue (withRequired required r) =
      checkMatches lib requestValue r := by
  show (if r.IsContains = true then checkContains requestValue (withRequired required r)
    else if r.IsRegex = true then checkRegex lib requestValue (withRequired required r)
    else checkRequired requestValue (withRequired required r)) = checkMatches lib requestValue r
  rw [checkContains_withRequired, checkRegex_withRequired,
    checkRequired_withRequired required requestValue r h]
  rfl

/-! ## Flags, strategies and match types of a rule -/

/-- C21: the optional flags have the documented defaults: for a rule whose
flag pointers are unset `IsRequired` is true and `IsContains`, `IsRegex`,
`IsURLDecode` and `IsDebug` are false; when a flag is set, its accessor
returns the configured boolean. -/
theorem flag_defaults (r : SingleHeader) (b : Bool) :
    ((withRequired none r).IsRequired = true ∧ (withRequired (some b) r).IsRequired = b) ∧
    ((withStrategy none r.Regex r).IsContains = false ∧
      (withStrategy (some b) r.Regex r).IsContains = b) ∧
    ((withStrategy r.Contains none r).IsRegex = false ∧
      (withStrategy r.Contains (some b) r).IsRegex = b) ∧
    (({ r with URLDecode := none } : SingleHeader).IsURLDecode = false ∧
      ({ r with URLDecode := some b } : SingleHeader).IsURLDecode = b) ∧
    ((withDebug none r).IsDebug = false ∧ (withDebug (some b) r).IsDebug = b) ∧
    (r.Required = none → r.IsRequired = true) ∧
    (r.Contains = none → r.IsContains = false) ∧
    (r.Regex = none → r.IsRegex = false) ∧
    (r.URLDecode = none → r.IsURLDecode = false) ∧
    (r.Debug = none → r.IsDebug = false) ∧
    (r.Required = some b → r.IsRequired = b) ∧
    (r.Contains = some b → r.IsContains = b) ∧
    (r.Regex = some b → r.IsRegex = b) ∧
    (r.URLDecode = some b → r.IsURLDecode = b) ∧
    (r.Debug = some b → r.IsDebug = b) := by
  refine ⟨⟨rfl, rfl⟩, ⟨rfl, rfl⟩, ⟨rfl, rfl⟩, ⟨rfl, rfl⟩, ⟨rfl, rfl⟩, ?_, ?_, ?_, ?_, ?_,
    ?_, ?_, ?_, ?_, ?_⟩
  · intro h; simp [SingleHeader.IsRequired, h]
  · intro h; simp [SingleHeader.IsContains, h]
  · intro h; simp [SingleHeader.IsRegex, h]
  · intro h; simp [SingleHeader.IsURLDecode, h]
  · intro h; simp [SingleHeader.IsDebug, h]
  · intro h; simp [SingleHeader.IsRequired, h]
  · intro h; simp [SingleHeader.IsContains, h]
  · intro h; simp [SingleHeader.IsRegex, h]
  · intro h; simp [SingleHeader.IsURLDecode, h]
  · intro h; simp [SingleHeader.IsDebug, h]

/-- C25: the strategy of `checkMatches`: with `contains` set the result is
that of `checkContains`, whatever the `regex` flag is; with only `regex` set
it is that of `checkRegex`; with neither set it is that of `checkRequired`. -/
theorem checkMatches_strategy (lib : Lib) (requestValue : String) (r : SingleHeader) :
    (r.IsContains = true → r.IsRegex = true →
      checkMatches lib requestValue r = checkContains requestValue r) ∧
    (r.IsContains = true →
      checkMatches lib requestValue r = checkContains requestValue r) ∧
    (∀ regex : Option Bool, r.IsContains = true →
      checkMatches lib requestValue (withStrategy r.Contains regex r) =
        checkMatches lib requestValue r) ∧
    (r.IsContains = false → r.IsRegex = true →
      checkMatches lib requestValue r = checkRegex lib requestValue r) ∧
    (r.IsContains = false → r.IsRegex = false →
      checkMatches lib requestValue r = checkRequired requestValue r) := by
  refine ⟨?_, ?_, ?_, ?_, ?_⟩
  · intro hc _
    unfold checkMatches
    rw [if_pos hc]
  · intro hc
    unfold checkMatches
    rw [if_pos hc]
  · intro regex hc
    have hc2 : (withStrategy r.Contains regex r).IsContains = true := hc
    unfold checkMatches
    rw [if_pos hc, if_pos hc2]
    rfl
  · intro hc hx
    unfold checkMatches
    rw [if_neg (by simp [hc]), if_pos hx]
  · intro hc hx
    unfold checkMatches
    rw [if_neg (by simp [hc]), if_neg (by simp [hx])]

/-- A use of C25: the rule of the test `MatchAllContainConfig` has `contains`
set, and `checkMatches` on it is `checkContains`. -/
theorem checkMatches_strategy_witness :
    checkMatches sampleLib "de-DE" allContainsRule = checkContains "de-DE" allContainsRule :=
  (checkMatches_strategy sampleLib "de-DE" allContainsRule).2.1 rfl

/-- C26: the `required` flag has no effect when the header is present: on a
non-empty header value `checkMatches` and `checkRequired` give the same
boolean for a rule whatever its `required` flag is replaced by, in particular
for `required` true and `required` false. -/
theorem required_irrelevant_when_present (lib : Lib) (requestValue : String)
    (r : SingleHeader) (h : requestValue ≠ "") :
    (∀ required : Option Bool,
      checkMatches lib requestValue (withRequired required r) =
        checkMatches lib requestValue r ∧
      checkRequired requestValue (withRequired required r) = checkRequired requestValue r) ∧
    checkMatches lib requestValue (withRequired (some true) r) =
      checkMatches lib requestValue (withRequired (some false) r) ∧
    checkRequired requestValue (withRequired (some true) r) =
      checkRequired requestValue (withRequired (some false) r) := by
  refine ⟨fun required => ⟨checkMatches_withRequired lib required requestValue r h,
    checkRequired_withRequired required requestValue r h⟩, ?_, ?_⟩
  · rw [checkMatches_withRequired lib _ requestValue r h,
      checkMatches_withRequired lib _ requestValue r h]
  · rw [checkRequired_withRequired _ requestValue r h,
      checkRequired_withRequired _ requestValue r h]

/-- A use of C26: on the header value `de-DE` the rule of the test
`MatchOneOptionalConfig` gives the same result when it is made required. -/
theorem required_irrelevant_when_present_witness :
    checkMatches sampleLib "de-DE" (withRequired (some true) oneOptionalRule) =
      checkMatches sampleLib "de-DE" (withRequired (some false) oneOptionalRule) :=
  (required_irrelevant_when_present sampleLib "de-DE" oneOptionalRule (by decide)).2.1

/-! ## Exact behaviour of the top-level combinators: lemmas -/

theorem split_iff_index {α : Type} (P Q : α → Prop) (l : List α) :
    (∃ pre r post, l = pre ++ r :: post ∧ P r ∧ ∀ q ∈ post, Q q) ↔
      ∃ (i : Nat) (r : α), l[i]? = some r ∧ P r ∧
        ∀ (j : Nat) (q : α), i < j → l[j]? = some q → Q q := by
  induction l with
  | nil => simp
  | cons a l ih =>
    constructor
    · rintro ⟨pre, r, post, hsplit, hP, hQ⟩
      cases pre with
      | nil =>
        simp only [List.nil_append, List.cons.injEq] at hsplit
        obtain ⟨rfl, rfl⟩ := hsplit
        refine ⟨0, a, by simp, hP, ?_⟩
        intro j q hj hq
        cases j with
        | zero => omega
        | succ j =>
          simp only [List.getElem?_cons_succ] at hq
          exact hQ q (List.getElem?_mem hq)
      | cons p pre =>
        simp only [List.cons_append, List.cons.injEq] at hsplit
        obtain ⟨rfl, rfl⟩ := hsplit
        obtain ⟨i, r', hi, hP', hQ'⟩ := ih.1 ⟨pre, r, post, rfl, hP, hQ⟩
        refine ⟨i + 1, r', by simpa using hi, hP', ?_⟩
        intro j q hj hq
        cases j with
        | zero => omega
        | succ j =>
          simp only [List.getElem?_cons_succ] at hq
          exact hQ' j q (by omega) hq
    · rintro ⟨i, r, hi, hP, hQ⟩
      cases i with
      | zero =>
        simp only [List.getElem?_cons_zero, Option.some.injEq] at hi
        subst hi
        refine ⟨[], a, l, rfl, hP, ?_⟩
        intro q hq
        obtain ⟨j, hj⟩ := List.mem_iff_getElem?.1 hq
        exact hQ (j + 1) q (by omega) (by simpa using hj)
      | succ i =>
        simp only [List.getElem?_cons_succ] at hi
        obtain ⟨pre, r', post, hsplit, hP', hQ'⟩ := ih.2 ⟨i, r, hi, hP, fun j q hj hq =>
          hQ (j + 1) q (by omega) (by simpa using hq)⟩
        exact ⟨a :: pre, r', post, by simp [hsplit], hP', hQ'⟩

theorem matchesPresent_iff (lib : Lib) (req : Request) (r : SingleHeader) :
    matchesPresent lib req r = true ↔
      (observedValue lib req r ≠ "" ∧
        checkMatches lib (observedValue lib req r) r = true) := by
  simp [matchesPresent]

theorem missingRequired_valid (lib : Lib) (req : Request) (q : SingleHeader)
    (hq : RuleValid q) :
    missingRequired lib req q = false ↔
      ¬(observedValue lib req q = "" ∧ q.IsRequired = true) := by
  have hvals : ∀ value ∈ q.Values, value ≠ "" :=
    fun value hv => ne_empty_of_TrimSpace_ne value (hq.2.2.2.2 value hv)
  unfold missingRequired
  by_cases hobs : observedValue lib req q = ""
  · rw [hobs, checkRequired_empty_eq q hq.2.2.2.1 hvals]
    cases q.IsRequired <;> simp
  · have hb : (observedValue lib req q == "") = false := by simpa using hobs
    simp [hobs, hb]

theorem checkOne_true_split (lib : Lib) (headers : List SingleHeader) (req : Request) :
    checkOne lib headers req = true ↔
      ∃ pre r post, headers = pre ++ r :: post ∧ matchesPresent lib req r = true ∧
        ∀ q ∈ post, missingRequired lib req q = false := by
  unfold checkOne
  rw [checkOneLoop_true_iff]
  constructor
  · rintro (⟨hb, _⟩ | h)
    · exact absurd hb (by simp)
    · exact h
  · exact fun h => Or.inr h

theorem checkOneLoop_false_of_no_match (lib : Lib) (req : Request)
    (headers : List SingleHeader)
    (h : ∀ p ∈ headers, matchesPresent lib req p = false) :
    checkOneLoop lib req headers false = false := by
  cases hc : checkOneLoop lib req headers false with
  | false => rfl
  | true =>
    rcases (checkOneLoop_true_iff lib req headers false).1 hc with
      ⟨hb, _⟩ | ⟨pre, r, post, hsplit, hmp, _⟩
    · exact absurd hb (by simp)
    · have := h r (by simp [hsplit])
      rw [this] at hmp
      exact absurd hmp (by simp)

theorem observedValue_absent (lib : Lib) (req : Request) (r : SingleHeader)
    (hq : (lib.QueryUnescape "").1 = "") (h : req.Get r.Name = "") :
    observedValue lib req r = "" := by
  unfold observedValue
  rw [h]
  split_ifs
  · exact hq
  · rfl

theorem passesNone_withStrategy (lib : Lib) (contains regex : Option Bool) (req : Request)
    (r : SingleHeader) :
    passesNone lib req (withStrategy contains regex r) = passesNone lib req r := rfl

theorem checkRequired_nonempty_iff (requestValue : String) (r : SingleHeader)
    (h : requestValue ≠ "") :
    checkRequired requestValue r = true ↔
      if r.MatchType = "none" then ∀ value ∈ r.Values, requestValue ≠ value
      else ∃ value ∈ r.Values, requestValue = value := by
  rw [checkRequired_nonempty requestValue r h]
  by_cases hn : r.MatchType = "none"
  · have hn2 : r.MatchType = MatchNone := hn
    rw [if_pos hn2, if_pos hn, beq_iff_eq, List.length_eq_zero, List.filter_eq_nil_iff]
    simp
  · have hn2 : ¬r.MatchType = MatchNone := hn
    rw [if_neg hn2, if_neg hn, decide_eq_true_eq, gt_iff_lt, filter_length_pos_iff]
    simp

/-! ## Exact behaviour of the top-level combinators -/

/-- C22: for a rule list accepted by `New` and every request, `checkOne` is
true exactly when there is a rule at some index `i` whose header value is
non-empty and satisfies `checkMatches` and no rule at a later index `j` has
an empty header value while being required, the header value being the one the
rule is evaluated on; a request in which every header value is empty is
denied, and a required rule whose header value is empty denies the request
when no rule after it matches, whatever matched before it. -/
theorem checkOne_exact (lib : Lib) (config : Config) (name : String) (v : Validator)
    (req : Request) (hNew : New config name = .ok v) :
    (checkOne lib v.headers req = true ↔
      ∃ (i : Nat) (r : SingleHeader), v.headers[i]? = some r ∧
        (observedValue lib req r ≠ "" ∧
          checkMatches lib (observedValue lib req r) r = true) ∧
        ∀ (j : Nat) (q : SingleHeader), i < j → v.headers[j]? = some q →
          ¬(observedValue lib req q = "" ∧ q.IsRequired = true)) ∧
    ((∀ r ∈ v.headers, observedValue lib req r = "") → checkOne lib v.headers req = false) ∧
    ((lib.QueryUnescape "").1 = "" → (∀ r ∈ v.headers, req.Get r.Name = "") →
      checkOne lib v.headers req = false) ∧
    (∀ pre q post, v.headers = pre ++ q :: post → observedValue lib req q = "" →
      q.IsRequired = true →
      (∀ p ∈ post, ¬(observedValue lib req p ≠ "" ∧
        checkMatches lib (observedValue lib req p) p = true)) →
      checkOne lib v.headers req = false) := by
  obtain ⟨hh, _, hvalid⟩ := New_ok_headers config name v hNew
  have hvalid2 : ∀ q ∈ v.headers, RuleValid q := fun q hq => hvalid q (hh ▸ hq)
  have hnone : (∀ r ∈ v.headers, observedValue lib req r = "") →
      checkOne lib v.headers req = false := by
    intro habsent
    apply checkOneLoop_false_of_no_match
    intro p hp
    simp [matchesPresent, habsent p hp]
  refine ⟨?_, hnone, ?_, ?_⟩
  · rw [← split_iff_index, checkOne_true_split]
    constructor
    · rintro ⟨pre, r, post, hsplit, hmp, hpost⟩
      refine ⟨pre, r, post, hsplit, (matchesPresent_iff lib req r).1 hmp, ?_⟩
      intro q hq
      exact (missingRequired_valid lib req q (hvalid2 q (by simp [hsplit, hq]))).1 (hpost q hq)
    · rintro ⟨pre, r, post, hsplit, hmp, hpost⟩
      refine ⟨pre, r, post, hsplit, (matchesPresent_iff lib req r).2 hmp, ?_⟩
      intro q hq
      exact (missingRequired_valid lib req q (hvalid2 q (by simp [hsplit, hq]))).2 (hpost q hq)
  · intro hq habsent
    exact hnone (fun r hr => observedValue_absent lib req r hq (habsent r hr))
  · intro pre q post hsplit hobs hreq hpost
    have hq : RuleValid q := hvalid2 q (by simp [hsplit])
    have hmr : missingRequired lib req q = true := by
      cases hc : missingRequired lib req q with
      | true => rfl
      | false => exact absurd ⟨hobs, hreq⟩ ((missingRequired_valid lib req q hq).1 hc)
    have hmp : matchesPresent lib req q = false := by
      simp [matchesPresent, hobs]
    unfold checkOne
    rw [hsplit, checkOneLoop_append, checkOneLoop_cons, hmr, hmp]
    simp only [Bool.not_true, Bool.and_false, Bool.or_false]
    apply checkOneLoop_false_of_no_match
    intro p hp
    cases hc : matchesPresent lib req p with
    | false => rfl
    | true => exact absurd ((matchesPresent_iff lib req p).1 hc) (hpost p hp)

/-- A use of C22: with the two rules of the test `matchTopLevelOneConfig` and
a request without any header (the test `MatchTopLevelOne_Fail_InvalidHeader`)
`checkOne` denies the request. -/
theorem checkOne_exact_witness :
    checkOne sampleLib [languageRule, typeRule] emptyRequest = false :=
  (checkOne_exact sampleLib (sampleConfig [languageRule, typeRule] "one") "validator"
    { headers := [languageRule, typeRule],
      config := fillDefaults (sampleConfig [languageRule, typeRule] "one"),
      name := "validator" }
    emptyRequest rfl).2.1
    (by
      intro r hr
      rcases List.mem_cons.1 hr with rfl | hr
      · rfl
      · rw [List.mem_singleton.1 hr]
        rfl)

/-- C23: for every rule list and request, `checkNone` is true exactly when
every rule whose (optionally URL-decoded) header value is non-empty passes
`checkRequired` on that value, which is the exact comparison with the
configured values: the value equals none of them for a rule of match type
`none`, and one of them otherwise.  The `contains` and `regex` flags of the
rules have no influence, a rule whose header value is empty never causes a
denial, and a request with none of the configured headers is admitted. -/
theorem checkNone_exact (lib : Lib) (headers : List SingleHeader) (req : Request) :
    (checkNone lib headers req = true ↔
      ∀ r ∈ headers, observedValue lib req r ≠ "" →
        checkRequired (observedValue lib req r) r = true) ∧
    (∀ r ∈ headers, observedValue lib req r ≠ "" →
      (checkRequired (observedValue lib req r) r = true ↔
        if r.MatchType = "none" then ∀ value ∈ r.Values, observedValue lib req r ≠ value
        else ∃ value ∈ r.Values, observedValue lib req r = value)) ∧
    (∀ flags : SingleHeader → Option Bool × Option Bool,
      checkNone lib (headers.map (fun r => withStrategy (flags r).1 (flags r).2 r)) req =
        checkNone lib headers req) ∧
    ((∀ r ∈ headers, observedValue lib req r = "") → checkNone lib headers req = true) ∧
    ((lib.QueryUnescape "").1 = "" → (∀ r ∈ headers, req.Get r.Name = "") →
      checkNone lib headers req = true) := by
  have hiff : checkNone lib headers req = true ↔
      ∀ r ∈ headers, observedValue lib req r ≠ "" →
        checkRequired (observedValue lib req r) r = true := by
    rw [checkNone_eq_all, List.all_eq_true]
    constructor
    · intro h r hr hobs
      have := h r hr
      unfold passesNone at this
      have hb : (observedValue lib req r == "") = false := by simpa using hobs
      simpa [hb] using this
    · intro h r hr
      unfold passesNone
      by_cases hobs : observedValue lib req r = ""
      · simp [hobs]
      · simp [h r hr hobs]
  refine ⟨hiff, ?_, ?_, ?_, ?_⟩
  · intro r _ hobs
    exact checkRequired_nonempty_iff (observedValue lib req r) r hobs
  · intro flags
    have hf : (passesNone lib req ∘ fun r => withStrategy (flags r).1 (flags r).2 r) =
        passesNone lib req := by
      funext r
      exact passesNone_withStrategy lib (flags r).1 (flags r).2 req r
    rw [checkNone_eq_all, checkNone_eq_all, List.all_map, hf]
  · intro habsent
    rw [hiff]
    intro r hr hobs
    exact absurd (habsent r hr) hobs
  · intro hq habsent
    rw [hiff]
    intro r hr hobs
    exact absurd (observedValue_absent lib req r hq (habsent r hr)) hobs

/-- C24: the match type of a rule is not restricted to the three documented
values: `New` accepts a rule with any match type that is non-blank, the match
type `all` needing `contains` or `regex`, when its name and values pass the
checks;
and for every match type other than exactly `all` and `none` each of
`checkContains`, `checkRegex` and `checkRequired` is true exactly when its
count `matchCount` is positive, which for `checkContains` and `checkRegex`
means that at least one configured value matches. -/
theorem matchType_unrestricted (lib : Lib) (requestValue : String) (r : SingleHeader) :
    (TrimSpace r.Name ≠ "" → TrimSpace r.MatchType ≠ "" →
      (r.MatchType = "all" → r.IsContains = true ∨ r.IsRegex = true) →
      r.Values ≠ [] → (∀ value ∈ r.Values, TrimSpace value ≠ "") →
      ∀ (config : Config) (name : String), config.Headers = [r] →
        ∃ v, New config name = .ok v) ∧
    (r.MatchType ≠ "all" → r.MatchType ≠ "none" →
      checkContains requestValue r = decide (containsCount requestValue r.Values 0 > 0) ∧
      checkRegex lib requestValue r =
        decide (regexCount lib requestValue r.IsDebug r.Values 0 > 0) ∧
      checkRequired requestValue r =
        decide (requiredCount requestValue r.IsRequired r.Values 0 > 0) ∧
      (checkContains requestValue r = true ↔
        ∃ value ∈ r.Values, Contains requestValue value = true) ∧
      (checkRegex lib requestValue r = true ↔
        ∃ value ∈ r.Values, (lib.MatchString value requestValue).1 = true ∧
          (lib.MatchString value requestValue).2 = none)) := by
  constructor
  · intro h1 h2 h3 h4 h5 config name hcfg
    apply (New_ok_iff_valid config name).2
    refine ⟨by simp [hcfg], ?_⟩
    intro q hq
    rw [hcfg, List.mem_singleton] at hq
    subst hq
    refine ⟨h1, h2, ?_, h4, h5⟩
    rintro ⟨ha, hc, hx⟩
    rcases h3 ha with h | h
    · rw [hc] at h
      exact absurd h (by simp)
    · rw [hx] at h
      exact absurd h (by simp)
  · intro hall hnone
    have hc : checkContains requestValue r =
        decide (containsCount requestValue r.Values 0 > 0) := by
      unfold checkContains
      generalize containsCount requestValue r.Values 0 = n
      simp [MatchNone, MatchAll, hall, hnone, Nat.pos_iff_ne_zero]
    have hx : checkRegex lib requestValue r =
        decide (regexCount lib requestValue r.IsDebug r.Values 0 > 0) := by
      unfold checkRegex
      generalize regexCount lib requestValue r.IsDebug r.Values 0 = n
      simp [MatchNone, MatchAll, hall, hnone, Nat.pos_iff_ne_zero]
    have hr : checkRequired requestValue r =
        decide (requiredCount requestValue r.IsRequired r.Values 0 > 0) := by
      unfold checkRequired
      generalize requiredCount requestValue r.IsRequired r.Values 0 = n
      simp [MatchNone, hnone]
    refine ⟨hc, hx, hr, ?_, ?_⟩
    · rw [hc, decide_eq_true_eq, containsCount_eq, Nat.zero_add, gt_iff_lt,
        filter_length_pos_iff]
    · rw [hx, decide_eq_true_eq, regexCount_eq, Nat.zero_add, gt_iff_lt,
        filter_length_pos_iff]
      simp

/-- A use of C24: a rule with the match type `ALL` and no strategy flag
passes the checks of `New`. -/
theorem matchType_unrestricted_witness :
    ∃ v, New (sampleConfig [upperAllRule] "") "validator" = .ok v :=
  (matchType_unrestricted sampleLib "de-DE" upperAllRule).1 (by decide) (by decide)
    (fun h => absurd h (by decide)) (by decide)
    (by
      intro value hv
      rw [List.mem_singleton.1 hv]
      decide)
    (sampleConfig [upperAllRule] "") "validator" rfl

end ValidateHeaders
